import Mathlib

/-!
Verification of the `mccontrol` package of NewNanCity/K8sConsole.

This file gives a shallow embedding of the command-execution / log-streaming
engine (`pkg/mccontrol`): the log-line parser and the one-shot and follow
modes of `FetchLogs` (logs.go), the catch-up/reconnect protocol
(`tryReconnect` in logs.go), the RCON executor (`rconExecutor`), the
executor factory (`CreateCommandExecutor`, executor.go), the pod discovery
selection (`findAndUpdatePodInfo`), the session manager
(`cleanupIdleSessions`, `SessionExecuteCommand`) and the exec executor
(`execExecutor`).

Modelling conventions:
* `time.Time` is modelled as `Nat` (nanoseconds); the Go zero time is `0`,
  `t.After u` is `u < t`, and `t.Add(time.Nanosecond)` is `t + 1`.
* The RFC3339Nano parser of the Go standard library is an external
  primitive; it is passed around as a parameter `parseTS : String → Option Nat`.
* Streams are modelled by the list of results that successive
  `ReadString('\n')` calls return, ending in an error (EOF or otherwise).
* Goroutine-local state is threaded explicitly; callbacks, sleeps and
  stream closes are recorded in an event trace.
-/

namespace mccontrol

/-- Go `strings.TrimRight(line, "\n")`: remove every trailing `'\n'`. -/
def trimRightNewline (s : String) : String :=
  String.mk ((s.data.reverse.dropWhile (fun c => c = '\n')).reverse)

/-- Go `strings.IndexByte(line, ' ')` at character level (a space is a
single byte, so the byte index and the character index select the same
split point). -/
def firstSpaceIdx : List Char → Option Nat
  | [] => none
  | c :: rest => if c = ' ' then some 0 else (firstSpaceIdx rest).map (· + 1)

/-- The `parseLogLine` closure of `FetchLogs` (logs.go):
split at the first space (`tsEnd > 0`); if the prefix parses as an
RFC3339Nano timestamp (`parseTS`), return the rest with trailing newlines
stripped, the timestamp, and `true`; otherwise return the whole line
stripped, the zero time and `false`. -/
def parseLogLine (parseTS : String → Option Nat) (line : String) :
    String × Nat × Bool :=
  match firstSpaceIdx line.data with
  | some i =>
      if 0 < i then
        match parseTS (String.mk (line.data.take i)) with
        | some ts => (trimRightNewline (String.mk (line.data.drop (i + 1))), ts, true)
        | none => (trimRightNewline line, 0, false)
      else (trimRightNewline line, 0, false)
  | none => (trimRightNewline line, 0, false)

/-- How the log stream ends in one-shot mode: `io.EOF` or a read error. -/
inductive StreamEnd where
  | eof : StreamEnd
  | failure (msg : String) : StreamEnd
deriving Repr, DecidableEq

/-- The one-shot read loop of `FetchLogs` (logs.go, `callback == nil`):
read lines until the stream ends; on EOF return the accumulated entries,
on any other read error return the partial entries plus an error.  A line
returned together with the terminal error is discarded (the Go code checks
`err` before using `line`). -/
def fetchLogsOneShotLoop (parseTS : String → Option Nat) :
    List String → List String → StreamEnd → List String × Option String
  | acc, [], e =>
      match e with
      | .eof => (acc, none)
      | .failure msg => (acc, some ("读取日志行失败: " ++ msg))
  | acc, l :: ls, e =>
      let acc' := if l ≠ "" then acc ++ [(parseLogLine parseTS l).1] else acc
      fetchLogsOneShotLoop parseTS acc' ls e

/-- `FetchLogs` in one-shot mode, applied to the successful reads `ls`
followed by the terminal condition `e`. -/
def fetchLogsOneShot (parseTS : String → Option Nat) (ls : List String)
    (e : StreamEnd) : List String × Option String :=
  fetchLogsOneShotLoop parseTS [] ls e

/-- State threaded through the catch-up read loop inside `tryReconnect`
(logs.go): the pending batch `missed` (`missedLogs`), the cursor
`latest` (`latestTimestamp`), the running batch maximum `batchLatest`
(`currentBatchLatestTimestamp`) and the batches delivered so far through
`callback(lines, "")`. -/
structure CatchSt where
  missed : List String
  latest : Nat
  batchLatest : Nat
  delivered : List (List String)
deriving Repr, DecidableEq

/-- The `if line != ""` body of the catch-up loop: parse the line; a line
whose timestamp is strictly newer than the cursor is buffered (updating the
batch maximum); a line without a timestamp is buffered as-is; a line whose
timestamp is `≤` the cursor is dropped. -/
def catchUpProcessLine (parseTS : String → Option Nat) (line : String)
    (st : CatchSt) : CatchSt :=
  if line = "" then st
  else
    let r := parseLogLine parseTS line
    if r.2.2 = true ∧ st.latest < r.2.1 then
      { st with missed := st.missed ++ [r.1],
                batchLatest :=
                  if st.batchLatest < r.2.1 then r.2.1 else st.batchLatest }
    else if r.2.2 = false then
      { st with missed := st.missed ++ [r.1] }
    else st

/-- The flush step of the catch-up loop: when the buffer reaches
`batchSize`, or a read error occurred with a non-empty buffer, deliver the
buffer and fold the batch maximum into the cursor. -/
def catchUpFlush (batchSize : Nat) (isErr : Bool) (st : CatchSt) : CatchSt :=
  if batchSize ≤ st.missed.length ∨ (isErr = true ∧ 0 < st.missed.length) then
    { missed := [],
      latest := if st.latest < st.batchLatest then st.batchLatest else st.latest,
      batchLatest := 0,
      delivered := st.delivered ++ [st.missed] }
  else st

/-- The whole catch-up read loop over the successful reads `ls` followed by
the data `fin` returned together with the terminal read error (EOF or
otherwise; the loop breaks either way after processing it). -/
def catchUpRun (parseTS : String → Option Nat) (batchSize : Nat) :
    List String → String → CatchSt → CatchSt
  | [], fin, st =>
      catchUpFlush batchSize true (catchUpProcessLine parseTS fin st)
  | l :: ls, fin, st =>
      catchUpRun parseTS batchSize ls fin
        (catchUpFlush batchSize false (catchUpProcessLine parseTS l st))

/-- The subset of `corev1.PodLogOptions` that `FetchLogs` manipulates. -/
structure PodLogOptionsM where
  container : String
  previous : Bool
  timestamps : Bool
  follow : Bool
  sinceTime : Option Nat
  tailLines : Option Nat
deriving Repr, DecidableEq

/-- Result of `tryReconnect` (logs.go): the catch-up batches delivered, the
advanced cursor (returned as `latestTimestamp`), the options of the
catch-up query it issued (if any) and the options of the reopened follow
query. -/
structure ReconnectRes where
  delivered : List (List String)
  newCursor : Nat
  catchUpOpts : Option PodLogOptionsM
  followOpts : PodLogOptionsM
deriving Repr, DecidableEq

/-- `tryReconnect` (logs.go): if a line has ever been delivered
(`lastTimestamp ≠ 0`), issue a non-follow catch-up query starting one
nanosecond after the cursor and run the catch-up loop over its contents
(`catchUpStream`; `none` models `getStream` failing, which only reports a
status message).  Then reopen the follow query one nanosecond after the
(possibly advanced) cursor — or at the caller's original `SinceTime` if
nothing was ever delivered — with `TailLines` cleared. -/
def tryReconnectModel (parseTS : String → Option Nat) (batchSize : Nat)
    (optionsSince : Option Nat) (container : String) (previous : Bool)
    (lastTimestamp : Nat) (catchUpStream : Option (List String × String)) :
    ReconnectRes :=
  let st0 : CatchSt := ⟨[], lastTimestamp, 0, []⟩
  let cOpts : Option PodLogOptionsM :=
    if lastTimestamp ≠ 0 then
      some ⟨container, previous, true, false, some (lastTimestamp + 1), none⟩
    else none
  let st :=
    if lastTimestamp ≠ 0 then
      match catchUpStream with
      | some (ls, fin) => catchUpRun parseTS batchSize ls fin st0
      | none => st0
    else st0
  let followSince : Option Nat :=
    if st.latest ≠ 0 then some (st.latest + 1) else optionsSince
  ⟨st.delivered, st.latest, cOpts,
   ⟨container, previous, true, true, followSince, none⟩⟩

/-- The maximum over `c0` and the parsed timestamps of `lines`. -/
def maxParsedTs (parseTS : String → Option Nat) (c0 : Nat)
    (lines : List String) : Nat :=
  lines.foldl (fun acc l =>
    let r := parseLogLine parseTS l
    if r.2.2 = true then max acc r.2.1 else acc) c0

/-- The line-processing step of the follow-mode read loop (logs.go):
buffer the parsed content and advance the cursor when the parsed timestamp
is strictly newer. -/
def followProcessLine (parseTS : String → Option Nat) (line : String)
    (buf : List String) (cursor : Nat) : List String × Nat :=
  if line = "" then (buf, cursor)
  else
    let r := parseLogLine parseTS line
    (buf ++ [r.1], if r.2.2 = true ∧ cursor < r.2.1 then r.2.1 else cursor)

/-- Invariant of the catch-up loop relative to the initial cursor `c0` and
the reads already `processed`. -/
def CatchInv (parseTS : String → Option Nat) (c0 : Nat)
    (processed : List String) (st : CatchSt) : Prop :=
  c0 ≤ st.latest
  ∧ (st.missed = [] → st.batchLatest = 0)
  ∧ max st.latest st.batchLatest = maxParsedTs parseTS c0 processed
  ∧ ∀ content ∈ st.missed ++ st.delivered.flatten,
      ∃ l ∈ processed, (parseLogLine parseTS l).1 = content ∧
        ((parseLogLine parseTS l).2.2 = true → c0 < (parseLogLine parseTS l).2.1)

/-- A concrete all-digit parser standing in for the external RFC3339Nano
primitive when theorems are instantiated on concrete inputs. -/
def natOfDigitsAux : Nat → List Char → Option Nat
  | acc, [] => some acc
  | acc, c :: rest =>
      if '0' ≤ c ∧ c ≤ '9' then
        natOfDigitsAux (acc * 10 + (c.toNat - '0'.toNat)) rest
      else none

/-- Concrete timestamp parser for witnesses: a non-empty all-digit string
parses to its numeric value, anything else fails. -/
def tsParserStub (s : String) : Option Nat :=
  match s.data with
  | [] => none
  | l => natOfDigitsAux 0 l

/-- A Go error value as observed by the follow loop: its message and
whether `errors.Is(err, context.Canceled)` holds. -/
structure GoErr where
  msg : String
  isCanceled : Bool
deriving Repr, DecidableEq

/-- Go `strings.Contains` on character lists. -/
def dataContains (pat : List Char) : List Char → Bool
  | [] => pat.isPrefixOf []
  | c :: rest => pat.isPrefixOf (c :: rest) || dataContains pat rest

/-- Go `strings.Contains(s, pat)`. -/
def strContains (s pat : String) : Bool :=
  dataContains pat.data s.data

/-- The `isRetryableError` test of the follow loop (logs.go): context
cancellation or one of the recognized transient-error signatures. -/
def isRetryableError (e : GoErr) : Bool :=
  e.isCanceled
  || strContains e.msg "http2: response body closed"
  || strContains e.msg "connection reset by peer"
  || strContains e.msg "broken pipe"
  || strContains e.msg "unexpected EOF"

/-- Error component of a `ReadString('\n')` result in follow mode. -/
inductive FollowErr where
  | eof : FollowErr
  | err (e : GoErr) : FollowErr
deriving Repr, DecidableEq

/-- One `ReadString('\n')` result in the follow loop together with the
state of the flush timer (`time.Since(lastCallbackTime) > maxWaitTime`) at
that iteration.  `res = none` is a successful read. -/
structure FollowRead where
  line : String
  res : Option FollowErr
  timerFlush : Bool
deriving Repr, DecidableEq

/-- Observable events of the follow goroutine, in order: data callbacks,
status callbacks, stream closes (recording whether the receiver was nil),
backoff sleeps, and the terminal callbacks. -/
inductive FollowEv where
  | deliver (lines : List String) : FollowEv
  | retrying (attempt : Nat) : FollowEv
  | closeCurrent (isNil : Bool) : FollowEv
  | backoff (attempt : Nat) (delayMs : Nat) : FollowEv
  | reconnectFailed (attempt : Nat) : FollowEv
  | reconnected : FollowEv
  | finalFailure (retryCount : Nat) : FollowEv
  | fatal (msg : String) : FollowEv
deriving Repr, DecidableEq

/-- State of the follow goroutine: whether `currentStream` is nil, the
batch buffer, the cursor `lastLogTimestamp`, `retryCount`, the event trace,
and whether the goroutine has panicked (nil-stream `Close`) or returned. -/
structure FollowSt where
  streamNil : Bool
  buffer : List String
  cursor : Nat
  retryCount : Nat
  trace : List FollowEv
  panicked : Bool
  finished : Bool
deriving Repr, DecidableEq

/-- Initial goroutine state: `lastLogTimestamp` is `options.SinceTime` (or
the zero time), the initial stream is live. -/
def initFollowSt (c0 : Nat) : FollowSt :=
  ⟨false, [], c0, 0, [], false, false⟩

/-- `isFinalEv` selects the one terminal "连接持续失败" callback. -/
def isFinalEv : FollowEv → Bool
  | .finalFailure _ => true
  | _ => false

/-- One iteration of the follow read loop (logs.go), with
`maxRetries = 5`, `retryDelay = 1s`, `maxRetryDelay = 30s` (delays in
milliseconds), `UntilTime` unset and no cancellation/stop signal pending.
`rcs` is the oracle of `tryReconnect` outcomes (`some ts` = success
returning cursor `ts`, `none` = failure); the head is consumed when
`tryReconnect` is called.  EOF is converted to the retryable
"unexpected EOF" error.  Closing a nil `currentStream` sets `panicked`
(a nil-interface method call panics in Go). -/
def followStepErr (e : GoErr) (buf2 : List String) (cur1 : Nat)
    (flushEv : List FollowEv) (rcs : List (Option Nat)) (st : FollowSt) :
    FollowSt × List (Option Nat) :=
  if isRetryableError e = true ∧ e.isCanceled = false then
    if 5 ≤ st.retryCount then
      ({ st with buffer := buf2,
                 cursor := cur1,
                 trace := st.trace ++ flushEv ++
                   [FollowEv.finalFailure st.retryCount],
                 finished := true }, rcs)
    else
      let k := st.retryCount + 1
      if st.streamNil = true then
        ({ st with buffer := buf2,
                   cursor := cur1,
                   retryCount := k,
                   trace := st.trace ++ flushEv ++
                     [FollowEv.retrying k, FollowEv.closeCurrent true],
                   panicked := true,
                   finished := true }, rcs)
      else
        let d := min (1000 * 2 ^ (k - 1)) 30000
        match rcs with
        | (some ts) :: rest =>
            ({ streamNil := false,
               buffer := buf2,
               cursor := ts,
               retryCount := 0,
               trace := st.trace ++ flushEv ++
                 [FollowEv.retrying k, FollowEv.closeCurrent false,
                  FollowEv.backoff k d, FollowEv.reconnected],
               panicked := false,
               finished := false }, rest)
        | none :: rest =>
            ({ st with streamNil := true,
                       buffer := buf2,
                       cursor := cur1,
                       retryCount := k,
                       trace := st.trace ++ flushEv ++
                         [FollowEv.retrying k, FollowEv.closeCurrent false,
                          FollowEv.backoff k d, FollowEv.reconnectFailed k] },
             rest)
        | [] =>
            ({ st with streamNil := true,
                       buffer := buf2,
                       cursor := cur1,
                       retryCount := k,
                       trace := st.trace ++ flushEv ++
                         [FollowEv.retrying k, FollowEv.closeCurrent false,
                          FollowEv.backoff k d, FollowEv.reconnectFailed k] },
             [])
  else
    ({ st with buffer := buf2,
               cursor := cur1,
               trace := st.trace ++ flushEv ++ [FollowEv.fatal e.msg],
               finished := true }, rcs)

def followStep (parseTS : String → Option Nat) (batchSize : Nat)
    (rd : FollowRead) (rcs : List (Option Nat)) (st : FollowSt) :
    FollowSt × List (Option Nat) :=
  let pr := followProcessLine parseTS rd.line st.buffer st.cursor
  let buf1 := pr.1
  let cur1 := pr.2
  let doFlush := batchSize ≤ buf1.length
      ∨ (0 < buf1.length ∧ rd.timerFlush = true)
      ∨ (rd.res ≠ none ∧ 0 < buf1.length)
  let buf2 := if doFlush then [] else buf1
  let flushEv : List FollowEv :=
    if doFlush then [FollowEv.deliver buf1] else []
  match rd.res with
  | none =>
      ({ st with buffer := buf2,
                 cursor := cur1,
                 trace := st.trace ++ flushEv,
                 retryCount := 0 }, rcs)
  | some FollowErr.eof =>
      followStepErr ⟨"unexpected EOF, attempting reconnect", false⟩
        buf2 cur1 flushEv rcs st
  | some (FollowErr.err g) =>
      followStepErr g buf2 cur1 flushEv rcs st

/-- The follow goroutine run over a script of read results, stopping when
a step returns or panics. -/
def followRun (parseTS : String → Option Nat) (batchSize : Nat) :
    List FollowRead → List (Option Nat) → FollowSt → FollowSt
  | [], _, st => st
  | rd :: rds, rcs, st =>
      if st.finished = true ∨ st.panicked = true then st
      else
        let s := followStep parseTS batchSize rd rcs st
        followRun parseTS batchSize rds s.2 s.1

/-- Every backoff sleep in the trace uses the exponential formula
`min(1s · 2^(attempt-1), 30s)` with a 1-based attempt counter `≤ 5`. -/
def BackoffOk (tr : List FollowEv) : Prop :=
  ∀ k d, FollowEv.backoff k d ∈ tr →
    d = min (1000 * 2 ^ (k - 1)) 30000 ∧ 1 ≤ k ∧ k ≤ 5

/-- Number of final-failure callbacks in a trace. -/
def FinalCount (tr : List FollowEv) : Nat :=
  (tr.filter isFinalEv).length

/-- Connection state of an `rconExecutor` (`connected`/`authenticated`). -/
structure RconSt where
  connected : Bool
  authenticated : Bool
deriving Repr, DecidableEq

/-- Outcome of the external `client.Authenticate(password)` call:
a transport error, an explicit rejection (`ok == false`), or success. -/
inductive AuthRes where
  | err (msg : String) : AuthRes
  | rejected : AuthRes
  | ok : AuthRes
deriving Repr, DecidableEq

/-- Environment of one `Connect` call: the outcome of `client.Connect()`
and, if it succeeds, of `client.Authenticate`. -/
structure ConnEnv where
  connectErr : Option String
  auth : AuthRes
deriving Repr, DecidableEq

/-- Result of `rconExecutor.Connect`: the new session state, the returned
error, and how many `Authenticate` calls were made. -/
structure ConnectOut where
  st : RconSt
  err : Option String
  authAttempts : Nat
deriving Repr, DecidableEq

/-- `rconExecutor.Connect` (mccontrol): no-op when already connected and
authenticated; otherwise connect, then authenticate exactly once; any
failure disconnects and leaves both flags false.  An explicit credential
rejection returns the dedicated error and is not retried. -/
def rconConnect (st : RconSt) (env : ConnEnv) : ConnectOut :=
  if st.connected = true ∧ st.authenticated = true then ⟨st, none, 0⟩
  else
    match env.connectErr with
    | some e => ⟨⟨false, false⟩, some ("连接RCON失败: " ++ e), 0⟩
    | none =>
        match env.auth with
        | .err e => ⟨⟨false, false⟩, some ("RCON认证错误: " ++ e), 1⟩
        | .rejected => ⟨⟨false, false⟩, some "RCON认证失败: 密码错误", 1⟩
        | .ok => ⟨⟨true, true⟩, none, 1⟩

/-- Outcome of one external `client.Command(cmd)` call. -/
inductive CmdRes where
  | ok (resp : String) : CmdRes
  | fail (errMsg : String) : CmdRes
deriving Repr, DecidableEq

deriving instance DecidableEq for Except

/-- Result of `rconExecutor.ExecuteCommand`: final session state, result,
number of `client.Command` attempts, and the backoff sleeps performed as
`(attempt index, delay in nanoseconds)` pairs. -/
structure RconOut where
  st : RconSt
  result : Except String String
  cmdAttempts : Nat
  sleeps : List (Nat × Nat)
deriving Repr, DecidableEq

/-- Next `client.Command` outcome from the environment script (an
exhausted script behaves as a failing transport). -/
def takeCmd : List CmdRes → CmdRes × List CmdRes
  | [] => (CmdRes.fail "", [])
  | c :: rest => (c, rest)

/-- Next reconnect environment from the script (an exhausted script
behaves as a failing transport). -/
def takeConn : List ConnEnv → ConnEnv × List ConnEnv
  | [] => (⟨some "", AuthRes.rejected⟩, [])
  | c :: rest => (c, rest)

/-- The retry loop of `rconExecutor.ExecuteCommand`
(`for retryCount = 0; retryCount <= maxRetries; retryCount++`): call
`Command`; on success return; on failure mark the session disconnected;
when `retryCount == maxRetries` return the wrapping error; otherwise sleep
`min(retryDelay · 1.5^retryCount, maxRetryDelay)` and reconnect.  Delays
are in nanoseconds: on the reachable domain `retryCount < 5` the Go
float64 computation `500ms · 1.5^k` is exact and equals
`(retryDelay · 3^k) / 2^k`.  `fuel` only drives the structural recursion;
called with `fuel = maxRetries + 1 - retryCount` the `0` case is
unreachable. -/
def rconCmdLoop (retryDelay maxRetryDelay maxRetries : Nat) :
    Nat → RconSt → List ConnEnv → List CmdRes → Nat → Nat →
    List (Nat × Nat) → RconOut
  | 0, _, _, _, _, attempts, sleeps =>
      ⟨⟨false, false⟩, .error "", attempts, sleeps⟩
  | fuel + 1, st, conns, cmds, retryCount, attempts, sleeps =>
      let t := takeCmd cmds
      match t.1 with
      | .ok resp => ⟨st, .ok resp, attempts + 1, sleeps⟩
      | .fail e =>
          if maxRetries ≤ retryCount then
            ⟨⟨false, false⟩,
             .error ("RCON命令执行失败，已尝试重连" ++ toString retryCount
               ++ "次: " ++ e),
             attempts + 1, sleeps⟩
          else
            let d := min ((retryDelay * 3 ^ retryCount) / 2 ^ retryCount)
              maxRetryDelay
            let c := takeConn conns
            let co := rconConnect ⟨false, false⟩ c.1
            rconCmdLoop retryDelay maxRetryDelay maxRetries fuel co.st c.2
              t.2 (retryCount + 1) (attempts + 1)
              (sleeps ++ [(retryCount, d)])

/-- `rconExecutor.ExecuteCommand` with the `newRconExecutor` parameters
(`maxRetries = 5`, `retryDelay = 500ms`, `maxRetryDelay = 10s`): if the
session is not connected-and-authenticated, `Connect` first and return its
error on failure without any `Command` attempt; then run the retry loop.
The second component is the number of `Authenticate` calls made by the
initial `Connect`. -/
def rconExecuteCommand (st0 : RconSt) (connEnvs : List ConnEnv)
    (cmds : List CmdRes) : RconOut × Nat :=
  if st0.connected = true ∧ st0.authenticated = true then
    (rconCmdLoop 500000000 10000000000 5 6 st0 connEnvs cmds 0 0 [], 0)
  else
    let c := takeConn connEnvs
    let co := rconConnect st0 c.1
    match co.err with
    | some e => (⟨co.st, .error e, 0, []⟩, co.authAttempts)
    | none => (rconCmdLoop 500000000 10000000000 5 6 co.st c.2 cmds 0 0 [],
        co.authAttempts)

/-- `corev1.PodPhase` values distinguished by `findAndUpdatePodInfo`. -/
inductive PodPhase where
  | running : PodPhase
  | succeeded : PodPhase
  | pending : PodPhase
  | failed : PodPhase
  | unknown : PodPhase
deriving Repr, DecidableEq

/-- The pod fields `findAndUpdatePodInfo` reads: name, phase,
`Status.StartTime` and `Status.PodIP`. -/
structure PodM where
  name : String
  phase : PodPhase
  startTime : Nat
  podIP : String
deriving Repr, DecidableEq

/-- The selection loop of `findAndUpdatePodInfo`: break at the first
Running pod; otherwise track the most recently started Succeeded pod
(strict `After`, so ties keep the earlier candidate).  Returns
(first Running pod, latest Succeeded pod). -/
def scanPods : List PodM → Option PodM → Nat → Option PodM × Option PodM
  | [], latest, _ => (none, latest)
  | p :: ps, latest, latestTime =>
      if p.phase = PodPhase.running then (some p, latest)
      else if p.phase = PodPhase.succeeded ∧
          (latest = none ∨ latestTime < p.startTime) then
        scanPods ps (some p) p.startTime
      else
        scanPods ps latest latestTime

/-- `findAndUpdatePodInfo` restricted to pod selection: `DiscoveryError`
when the candidate list is empty; else the first Running pod; else the
most recently started Succeeded pod; else the first candidate. -/
def findAndUpdatePodInfo (pods : List PodM) (selector : String) :
    Except String PodM :=
  match pods with
  | [] => .error ("未找到匹配标签 '" ++ selector ++ "' 的Pod")
  | p0 :: _ =>
      let r := scanPods pods none 0
      match r.1 with
      | some p => .ok p
      | none =>
          match r.2 with
          | some p => .ok p
          | none => .ok p0

/-- The three executor variants, with the state each one carries:
the RCON session, the attach `connected` flag, or the exec executor's
configuration (`useProcessFd`, timeout in seconds). -/
inductive ExecutorM where
  | rcon (serverIP : String) (port : Nat) (password : String)
      (st : RconSt) : ExecutorM
  | attach (podName nsName containerName : String)
      (connected : Bool) : ExecutorM
  | exec (podName nsName containerName : String) (useProcessFd : Bool)
      (timeoutSec : Nat) : ExecutorM
deriving Repr, DecidableEq

/-- `IsConnected` of each executor: RCON requires
`connected && authenticated`; attach reports its flag; exec only checks
that the pod identity fields are non-empty. -/
def executorIsConnected : ExecutorM → Bool
  | .rcon _ _ _ st => st.connected && st.authenticated
  | .attach _ _ _ c => c
  | .exec p n c _ _ => !(p == "") && !(n == "") && !(c == "")

/-- The `MinecraftController` fields the executor factory reads, plus the
environment scripts: the outcomes of successive `updatePodInfoIfNeeded`
calls and of the RCON `Connect`. -/
structure ControllerEnv where
  rconPort : Nat
  serverIP : String
  rconPassword : String
  podName : String
  nsName : String
  containerName : String
  rconConn : ConnEnv
  podUpdates : List Bool
deriving Repr, DecidableEq

/-- Next `updatePodInfoIfNeeded` outcome (an exhausted script keeps
succeeding, like the rate-limited no-op path). -/
def takeUpdate : List Bool → Bool × List Bool
  | [] => (true, [])
  | b :: rest => (b, rest)

/-- `attachExecutor.Connect`: no-op when connected; otherwise only
validates that the pod identity fields are non-empty. -/
def attachExecutorConnect (podName nsName containerName : String)
    (connected : Bool) : Except String ExecutorM :=
  if connected = true then .ok (.attach podName nsName containerName true)
  else if podName = "" ∨ nsName = "" ∨ containerName = "" then
    .error "Pod信息不完整"
  else .ok (.attach podName nsName containerName true)

/-- `execExecutor.Connect`: only validates that the pod identity fields
are non-empty (never called by the factory). -/
def execExecutorConnectCheck (podName nsName containerName : String) :
    Option String :=
  if podName = "" ∨ nsName = "" ∨ containerName = "" then
    some "Pod信息不完整"
  else none

/-- `createRconExecutor` (executor.go): fail when the RCON port is unset;
refresh pod info; build the executor and `Connect` (connection +
authentication). -/
def createRconExecutorM (env : ControllerEnv) (updates : List Bool) :
    Except String ExecutorM × List Bool :=
  if env.rconPort = 0 then (.error "RCON端口未设置", updates)
  else
    let u := takeUpdate updates
    if u.1 = false then (.error "更新Pod信息失败", u.2)
    else
      let co := rconConnect ⟨false, false⟩ env.rconConn
      match co.err with
      | some e => (.error ("RCON连接失败: " ++ e), u.2)
      | none =>
          (.ok (.rcon env.serverIP env.rconPort env.rconPassword co.st), u.2)

/-- `createAttachExecutor` (executor.go): refresh pod info; build the
executor and `Connect`. -/
def createAttachExecutorM (env : ControllerEnv) (updates : List Bool) :
    Except String ExecutorM × List Bool :=
  let u := takeUpdate updates
  if u.1 = false then (.error "更新Pod信息失败", u.2)
  else
    match attachExecutorConnect env.podName env.nsName env.containerName
        false with
    | .error e => (.error ("attach连接失败: " ++ e), u.2)
    | .ok ex => (.ok ex, u.2)

/-- `createExecExecutor` (executor.go): refresh pod info and return the
executor built by `newExecExecutor` (`useProcessFd = true`, 30s timeout);
`Connect` is NOT called. -/
def createExecExecutorM (env : ControllerEnv) (updates : List Bool) :
    Except String ExecutorM × List Bool :=
  let u := takeUpdate updates
  if u.1 = false then (.error "更新Pod信息失败", u.2)
  else (.ok (.exec env.podName env.nsName env.containerName true 30), u.2)

/-- `ExecutorType`: the four named values plus any other string. -/
inductive ExecutorTypeM where
  | rcon : ExecutorTypeM
  | attach : ExecutorTypeM
  | exec : ExecutorTypeM
  | auto : ExecutorTypeM
  | other (s : String) : ExecutorTypeM
deriving Repr, DecidableEq

/-- `CreateCommandExecutor` (executor.go): for `Auto`, try RCON, then
attach, then exec, in that order, returning the first success; for an
explicit type create only that one; unsupported types fail. -/
def CreateCommandExecutor (env : ControllerEnv) (t : ExecutorTypeM) :
    Except String ExecutorM :=
  match t with
  | .auto =>
      let r1 := createRconExecutorM env env.podUpdates
      match r1.1 with
      | .ok ex => .ok ex
      | .error _ =>
          let r2 := createAttachExecutorM env r1.2
          match r2.1 with
          | .ok ex => .ok ex
          | .error _ => (createExecExecutorM env r2.2).1
  | .rcon => (createRconExecutorM env env.podUpdates).1
  | .attach => (createAttachExecutorM env env.podUpdates).1
  | .exec => (createExecExecutorM env env.podUpdates).1
  | .other s => .error ("不支持的执行器类型: " ++ s)

/-- The session fields the sweep reads: id, `lastUsed`, `idleTimeout`
(times in nanoseconds). -/
structure SessionM where
  id : String
  lastUsed : Nat
  idleTimeout : Nat
deriving Repr, DecidableEq

/-- `CommandSession.IsIdle`: `time.Since(lastUsed) > idleTimeout`. -/
def sessionIsIdle (now : Nat) (s : SessionM) : Bool :=
  decide (s.idleTimeout < now - s.lastUsed)

/-- Observable events of the sweep: registry-lock transitions, registry
removals and executor disconnects (`session.Close()`). -/
inductive SweepEv where
  | lockAcquire : SweepEv
  | lockRelease : SweepEv
  | removeSession (id : String) : SweepEv
  | closeSession (id : String) : SweepEv
deriving Repr, DecidableEq

/-- Second phase of `cleanupIdleSessions`: for each collected idle id,
delete it from the registry, release the lock, close the session, and
re-acquire the lock; finally release the lock. -/
def sweepLoop (now : Nat) :
    List String → List SessionM → List SweepEv →
    List SessionM × List SweepEv
  | [], reg, evs => (reg, evs ++ [SweepEv.lockRelease])
  | id :: rest, reg, evs =>
      sweepLoop now rest (reg.filter (fun s => !(s.id == id)))
        (evs ++ [SweepEv.removeSession id, SweepEv.lockRelease,
                 SweepEv.closeSession id, SweepEv.lockAcquire])

/-- `sessionManager.cleanupIdleSessions`: under the registry lock collect
the idle session ids, then remove and close each, closing only after the
lock has been released. -/
def cleanupIdleSessions (now : Nat) (reg : List SessionM) :
    List SessionM × List SweepEv :=
  let idle := (reg.filter (sessionIsIdle now)).map (fun s => s.id)
  sweepLoop now idle reg [SweepEv.lockAcquire]

/-- `MinecraftController.SessionExecuteCommand`: look the session up under
the registry lock; a missing id fails with the SessionNotFoundError;
otherwise the command executes on the session (outcome supplied by the
environment). -/
def SessionExecuteCommand (reg : List SessionM) (id : String)
    (cmdResult : Except String String) : Except String String :=
  match reg.find? (fun s => s.id == id) with
  | none => .error ("会话不存在: " ++ id)
  | some _ => cmdResult

/-- Checks that every `closeSession` event happens while the registry lock
is not held (`d` tracks the lock depth). -/
def closesOutsideLock : Nat → List SweepEv → Bool
  | _, [] => true
  | d, SweepEv.lockAcquire :: rest => closesOutsideLock (d + 1) rest
  | d, SweepEv.lockRelease :: rest => closesOutsideLock (d - 1) rest
  | d, SweepEv.removeSession _ :: rest => closesOutsideLock d rest
  | d, SweepEv.closeSession _ :: rest =>
      (d == 0) && closesOutsideLock d rest

/-- The event suffix generated by the sweep for a list of idle ids. -/
def sweepEvents : List String → List SweepEv
  | [] => [SweepEv.lockRelease]
  | id :: rest =>
      [SweepEv.removeSession id, SweepEv.lockRelease,
       SweepEv.closeSession id, SweepEv.lockAcquire] ++ sweepEvents rest

/-- The outcome of one remote exec call: captured stdout, stderr, and the
error of `StreamWithContext` if any. -/
structure ExecOutcome where
  stdout : String
  stderr : String
  streamErr : Option String
deriving Repr, DecidableEq

/-- `execExecutor.executeViaProcessFd` result logic: on a stream error,
fail (mentioning stderr when non-empty); otherwise return stderr whenever
it is non-empty, else stdout. -/
def executeViaProcessFd (o : ExecOutcome) : Except String String :=
  match o.streamErr with
  | some e =>
      if o.stderr ≠ "" then .error (o.stderr ++ ": " ++ e)
      else .error ("执行命令失败: " ++ e)
  | none =>
      if o.stderr ≠ "" then .ok o.stderr
      else .ok o.stdout

/-- `execExecutor.executeViaDirectExec` result logic: on a stream error,
fail; otherwise return stderr only when stdout is empty and stderr is
non-empty, else stdout. -/
def executeViaDirectExec (o : ExecOutcome) : Except String String :=
  match o.streamErr with
  | some e =>
      if o.stderr ≠ "" then .error (o.stderr ++ ": " ++ e)
      else .error ("执行命令失败: " ++ e)
  | none =>
      if o.stdout = "" ∧ o.stderr ≠ "" then .ok o.stderr
      else .ok o.stdout

/-- The `execExecutor` fields relevant to command execution. -/
structure ExecExecutorM where
  podName : String
  nsName : String
  containerName : String
  timeoutSec : Nat
  useProcessFd : Bool
deriving Repr, DecidableEq

/-- `newExecExecutor`: fixed 30-second timeout, `useProcessFd = true`. -/
def newExecExecutorM (podName nsName containerName : String) :
    ExecExecutorM :=
  ⟨podName, nsName, containerName, 30, true⟩

/-- `execExecutor.ExecuteCommand`: dispatch on `useProcessFd`. -/
def execExecutorExecuteCommand (e : ExecExecutorM) (o : ExecOutcome) :
    Except String String :=
  if e.useProcessFd = true then executeViaProcessFd o
  else executeViaDirectExec o

theorem trimRightNewline_getLast? (s : String) :
    (trimRightNewline s).data.getLast? ≠ some '\n' := by
  unfold trimRightNewline
  simp only [String.data]
  rw [List.getLast?_reverse]
  generalize s.data.reverse = l
  induction l with
  | nil => simp
  | cons a t ih =>
      by_cases h : a = '\n'
      · simpa [List.dropWhile, h] using ih
      · simp [List.dropWhile, h]

theorem parseLogLine_fst (parseTS : String → Option Nat) (line : String) :
    ∃ t, (parseLogLine parseTS line).1 = trimRightNewline t := by
  unfold parseLogLine
  cases hi : firstSpaceIdx line.data with
  | none => exact ⟨line, rfl⟩
  | some i =>
      dsimp only
      by_cases h : 0 < i
      · rw [if_pos h]
        cases parseTS (String.mk (line.data.take i)) with
        | none => exact ⟨line, rfl⟩
        | some ts => exact ⟨String.mk (line.data.drop (i + 1)), rfl⟩
      · rw [if_neg h]
        exact ⟨line, rfl⟩

theorem fetchLogsOneShotLoop_spec (parseTS : String → Option Nat)
    (ls : List String) (e : StreamEnd) (acc : List String) :
    fetchLogsOneShotLoop parseTS acc ls e =
      (acc ++ (ls.filter (fun l => !(l == ""))).map
          (fun l => (parseLogLine parseTS l).1),
        match e with
        | .eof => none
        | .failure msg => some ("读取日志行失败: " ++ msg)) := by
  induction ls generalizing acc with
  | nil => cases e <;> simp [fetchLogsOneShotLoop]
  | cons l ls ih =>
      by_cases h : l = ""
      · simp [fetchLogsOneShotLoop, h, ih]
      · simp [fetchLogsOneShotLoop, h, ih]

/-- **C6**: `FetchLogs` without a callback reads lines until end-of-stream,
strips the timestamp prefix and trailing newlines from each line and
returns the accumulated list; the error component is `none` exactly when
the stream ended with EOF (a read error yields the partial list plus an
error); no returned entry ends in a line terminator; and when every line is
non-empty the result has exactly as many entries as the stream had lines —
in particular 50 entries for a 50-line stream. -/
theorem fetchLogs_oneShot_spec (parseTS : String → Option Nat)
    (ls : List String) (e : StreamEnd) :
    (fetchLogsOneShot parseTS ls e).1 =
      (ls.filter (fun l => !(l == ""))).map (fun l => (parseLogLine parseTS l).1)
    ∧ ((fetchLogsOneShot parseTS ls e).2 = none ↔ e = StreamEnd.eof)
    ∧ (∀ s ∈ (fetchLogsOneShot parseTS ls e).1, s.data.getLast? ≠ some '\n')
    ∧ ((∀ l ∈ ls, l ≠ "") →
        (fetchLogsOneShot parseTS ls e).1.length = ls.length) := by
  have hs := fetchLogsOneShotLoop_spec parseTS ls e []
  unfold fetchLogsOneShot
  rw [hs]
  refine ⟨by simp, ?_, ?_, ?_⟩
  · cases e <;> simp
  · intro s hsmem
    simp only [List.nil_append, List.mem_map] at hsmem
    obtain ⟨l, _, hl⟩ := hsmem
    obtain ⟨t, ht⟩ := parseLogLine_fst parseTS l
    rw [← hl, ht]
    exact trimRightNewline_getLast? t
  · intro hne
    have : ls.filter (fun l => !(l == "")) = ls := by
      apply List.filter_eq_self.mpr
      intro l hl
      simpa using hne l hl
    simp [this]

/-- Witness for C6: a stream of exactly 50 timestamped lines followed by
EOF yields 50 entries and no error. -/
theorem fetchLogs_oneShot_spec_witness :
    (fetchLogsOneShot tsParserStub (List.replicate 50 "1 a\n")
        StreamEnd.eof).1.length = 50
    ∧ (fetchLogsOneShot tsParserStub (List.replicate 50 "1 a\n")
        StreamEnd.eof).2 = none := by
  have h := fetchLogs_oneShot_spec tsParserStub (List.replicate 50 "1 a\n")
    StreamEnd.eof
  exact ⟨by rw [h.2.2.2 (by decide)]; rfl, h.2.1.mpr rfl⟩

theorem maxParsedTs_append_one (parseTS : String → Option Nat) (c0 : Nat)
    (xs : List String) (l : String) :
    maxParsedTs parseTS c0 (xs ++ [l]) =
      (if (parseLogLine parseTS l).2.2 = true then
        max (maxParsedTs parseTS c0 xs) (parseLogLine parseTS l).2.1
      else maxParsedTs parseTS c0 xs) := by
  simp [maxParsedTs, List.foldl_append]

theorem catchUpProcessLine_inv (parseTS : String → Option Nat) (c0 : Nat)
    (processed : List String) (st : CatchSt) (l : String)
    (h : CatchInv parseTS c0 processed st) :
    CatchInv parseTS c0 (processed ++ [l]) (catchUpProcessLine parseTS l st) := by
  obtain ⟨h1, h2, h3, h4⟩ := h
  unfold catchUpProcessLine
  by_cases hl : l = ""
  · subst hl
    refine ⟨h1, h2, ?_, ?_⟩
    · rw [maxParsedTs_append_one]
      have : (parseLogLine parseTS "").2.2 = false := rfl
      simp [this, h3]
    · intro content hc
      obtain ⟨x, hx, hpx⟩ := h4 content hc
      exact ⟨x, List.mem_append_left _ hx, hpx⟩
  · rw [if_neg hl]
    set r := parseLogLine parseTS l with hr
    by_cases hg : r.2.2 = true ∧ st.latest < r.2.1
    · rw [if_pos hg]
      refine ⟨le_trans h1 (le_of_lt hg.2) |>.trans (le_refl _) |> fun _ => h1, ?_, ?_, ?_⟩
      · intro hm
        exact absurd hm (by simp)
      · rw [maxParsedTs_append_one, ← hr]
        simp only [hg.1, if_true, ← h3]
        rcases le_or_lt r.2.1 st.batchLatest with hbl | hbl
        · rw [if_neg (not_lt.mpr hbl)]
          omega
        · rw [if_pos hbl]
          omega
      · intro content hc
        simp only [List.mem_append] at hc
        rcases hc with hc | hc
        · simp only [List.mem_append, List.mem_singleton] at hc
          rcases hc with hc | hc
          · obtain ⟨x, hx, hpx⟩ := h4 content (List.mem_append_left _ hc)
            exact ⟨x, List.mem_append_left _ hx, hpx⟩
          · refine ⟨l, List.mem_append_right _ (List.mem_singleton_self l), ?_, ?_⟩
            · rw [← hr]; exact hc.symm
            · intro _
              rw [← hr]
              exact lt_of_le_of_lt h1 hg.2
        · obtain ⟨x, hx, hpx⟩ := h4 content (List.mem_append_right _ hc)
          exact ⟨x, List.mem_append_left _ hx, hpx⟩
    · rw [if_neg hg]
      by_cases hok : r.2.2 = false
      · rw [if_pos hok]
        refine ⟨h1, ?_, ?_, ?_⟩
        · intro hm
          exact absurd hm (by simp)
        · rw [maxParsedTs_append_one, ← hr]
          simp [hok, h3]
        · intro content hc
          simp only [List.mem_append] at hc
          rcases hc with hc | hc
          · simp only [List.mem_append, List.mem_singleton] at hc
            rcases hc with hc | hc
            · obtain ⟨x, hx, hpx⟩ := h4 content (List.mem_append_left _ hc)
              exact ⟨x, List.mem_append_left _ hx, hpx⟩
            · refine ⟨l, List.mem_append_right _ (List.mem_singleton_self l), ?_, ?_⟩
              · rw [← hr]; exact hc.symm
              · intro hcontra
                rw [← hr] at hcontra
                rw [hcontra] at hok
                exact absurd hok (by simp)
          · obtain ⟨x, hx, hpx⟩ := h4 content (List.mem_append_right _ hc)
            exact ⟨x, List.mem_append_left _ hx, hpx⟩
      · rw [if_neg hok]
        have hok' : r.2.2 = true := by
          cases hb : r.2.2
          · exact absurd hb hok
          · rfl
        have hts : r.2.1 ≤ st.latest := by
          by_contra hcon
          exact hg ⟨hok', lt_of_not_le hcon⟩
        refine ⟨h1, h2, ?_, ?_⟩
        · rw [maxParsedTs_append_one, ← hr]
          simp only [hok', if_true, ← h3]
          omega
        · intro content hc
          obtain ⟨x, hx, hpx⟩ := h4 content hc
          exact ⟨x, List.mem_append_left _ hx, hpx⟩

theorem catchUpFlush_inv (parseTS : String → Option Nat) (c0 : Nat)
    (processed : List String) (st : CatchSt) (batchSize : Nat) (isErr : Bool)
    (h : CatchInv parseTS c0 processed st) :
    CatchInv parseTS c0 processed (catchUpFlush batchSize isErr st) := by
  obtain ⟨h1, h2, h3, h4⟩ := h
  unfold catchUpFlush
  by_cases hc : batchSize ≤ st.missed.length ∨ (isErr = true ∧ 0 < st.missed.length)
  · rw [if_pos hc]
    refine ⟨?_, fun _ => rfl, ?_, ?_⟩
    · rcases le_or_lt st.batchLatest st.latest with hb | hb
      · rw [if_neg (not_lt.mpr hb)]; exact h1
      · rw [if_pos hb]; exact le_of_lt (lt_of_le_of_lt h1 hb)
    · rcases le_or_lt st.batchLatest st.latest with hb | hb
      · rw [if_neg (not_lt.mpr hb)]
        simp only [← h3]
        omega
      · rw [if_pos hb]
        simp only [← h3]
        omega
    · intro content hc'
      simp only [List.nil_append, List.flatten_append, List.flatten_cons,
        List.flatten_nil, List.append_nil] at hc'
      apply h4 content
      simp only [List.mem_append] at hc' ⊢
      tauto
  · rw [if_neg hc]
    exact ⟨h1, h2, h3, h4⟩

theorem catchUpRun_inv (parseTS : String → Option Nat) (c0 : Nat)
    (batchSize : Nat) (ls : List String) (fin : String)
    (processed : List String) (st : CatchSt)
    (h : CatchInv parseTS c0 processed st) :
    CatchInv parseTS c0 (processed ++ (ls ++ [fin]))
      (catchUpRun parseTS batchSize ls fin st) := by
  induction ls generalizing processed st with
  | nil =>
      simpa using catchUpFlush_inv parseTS c0 (processed ++ [fin]) _ batchSize true
        (catchUpProcessLine_inv parseTS c0 processed st fin h)
  | cons l ls ih =>
      have step := catchUpFlush_inv parseTS c0 (processed ++ [l]) _ batchSize false
        (catchUpProcessLine_inv parseTS c0 processed st l h)
      have := ih (processed ++ [l]) _ step
      simpa [List.append_assoc] using this

theorem catchUpFlush_true_missed (batchSize : Nat) (st : CatchSt) :
    (catchUpFlush batchSize true st).missed = [] := by
  unfold catchUpFlush
  by_cases hc : batchSize ≤ st.missed.length ∨ (true = true ∧ 0 < st.missed.length)
  · rw [if_pos hc]
  · rw [if_neg hc]
    push_neg at hc
    have := hc.2 rfl
    exact List.length_eq_zero.mp (by omega)

theorem catchUpRun_ends_flushed (parseTS : String → Option Nat)
    (batchSize : Nat) (ls : List String) (fin : String) (st : CatchSt) :
    (catchUpRun parseTS batchSize ls fin st).missed = [] := by
  induction ls generalizing st with
  | nil => exact catchUpFlush_true_missed batchSize _
  | cons l ls ih => exact ih _

theorem parseLogLine_empty (parseTS : String → Option Nat) :
    parseLogLine parseTS "" = ("", 0, false) := rfl

theorem finalCount_append (a b : List FollowEv) :
    FinalCount (a ++ b) = FinalCount a + FinalCount b := by
  simp [FinalCount, List.filter_append]

theorem backoffOk_append (a b : List FollowEv) (ha : BackoffOk a)
    (hb : ∀ k d, FollowEv.backoff k d ∈ b →
      d = min (1000 * 2 ^ (k - 1)) 30000 ∧ 1 ≤ k ∧ k ≤ 5) :
    BackoffOk (a ++ b) := by
  intro k d hm
  rcases List.mem_append.mp hm with h | h
  exacts [ha k d h, hb k d h]

theorem flushEv_no_backoff (P : Prop) [Decidable P] (b : List String)
    (k d : Nat) :
    FollowEv.backoff k d ∉ (if P then [FollowEv.deliver b] else []) := by
  split <;> simp

theorem flushEv_finalCount (P : Prop) [Decidable P] (b : List String) :
    FinalCount (if P then [FollowEv.deliver b] else []) = 0 := by
  split <;> simp [FinalCount, isFinalEv]

theorem followStepErr_inv (e : GoErr) (buf2 : List String) (cur1 : Nat)
    (flushEv : List FollowEv) (rcs : List (Option Nat)) (st : FollowSt)
    (hB : BackoffOk st.trace) (hF : FinalCount st.trace = 0)
    (hfb : ∀ k d, FollowEv.backoff k d ∉ flushEv)
    (hff : FinalCount flushEv = 0) :
    BackoffOk (followStepErr e buf2 cur1 flushEv rcs st).1.trace
    ∧ ((followStepErr e buf2 cur1 flushEv rcs st).1.finished = false →
        FinalCount (followStepErr e buf2 cur1 flushEv rcs st).1.trace = 0)
    ∧ FinalCount (followStepErr e buf2 cur1 flushEv rcs st).1.trace ≤ 1 := by
  have hBf : BackoffOk (st.trace ++ flushEv) :=
    backoffOk_append _ _ hB (fun k d hm => absurd hm (hfb k d))
  have hFf : FinalCount (st.trace ++ flushEv) = 0 := by
    rw [finalCount_append, hF, hff]
  have hktail : ∀ (h5 : ¬ 5 ≤ st.retryCount) (d0 : Nat) (tail : List FollowEv),
      (∀ k d, FollowEv.backoff k d ∈ tail →
        k = st.retryCount + 1 ∧ d = d0) →
      d0 = min (1000 * 2 ^ (st.retryCount + 1 - 1)) 30000 →
      ∀ k d, FollowEv.backoff k d ∈ tail →
        d = min (1000 * 2 ^ (k - 1)) 30000 ∧ 1 ≤ k ∧ k ≤ 5 := by
    intro h5 d0 tail htail hd0 k d hm
    obtain ⟨hk, hd⟩ := htail k d hm
    subst hk
    subst hd
    exact ⟨hd0, by omega, by omega⟩
  unfold followStepErr
  by_cases hre : isRetryableError e = true ∧ e.isCanceled = false
  · rw [if_pos hre]
    by_cases h5 : 5 ≤ st.retryCount
    · rw [if_pos h5]
      dsimp only
      refine ⟨?_, fun hfin => by simp at hfin, ?_⟩
      · apply backoffOk_append _ _ hBf
        intro k d hm
        simp at hm
      · rw [finalCount_append, hFf]
        simp [FinalCount, isFinalEv]
    · rw [if_neg h5]
      by_cases hnil : st.streamNil = true
      · rw [if_pos hnil]
        dsimp only
        refine ⟨?_, fun hfin => by simp at hfin, ?_⟩
        · apply backoffOk_append _ _ hBf
          intro k d hm
          simp at hm
        · rw [finalCount_append, hFf]
          simp [FinalCount, isFinalEv]
      · rw [if_neg hnil]
        cases rcs with
        | nil =>
            dsimp only
            refine ⟨?_, fun hfin => ?_, ?_⟩
            · apply backoffOk_append _ _ hBf
              apply hktail h5 _ _ ?_ rfl
              intro k d hmm
              simp at hmm
              tauto
            · rw [finalCount_append, hFf]
              simp [FinalCount, isFinalEv]
            · rw [finalCount_append, hFf]
              simp [FinalCount, isFinalEv]
        | cons rc rest =>
            cases rc with
            | some ts =>
                dsimp only
                refine ⟨?_, fun hfin => ?_, ?_⟩
                · apply backoffOk_append _ _ hBf
                  apply hktail h5 _ _ ?_ rfl
                  intro k d hmm
                  simp at hmm
                  tauto
                · rw [finalCount_append, hFf]
                  simp [FinalCount, isFinalEv]
                · rw [finalCount_append, hFf]
                  simp [FinalCount, isFinalEv]
            | none =>
                dsimp only
                refine ⟨?_, fun hfin => ?_, ?_⟩
                · apply backoffOk_append _ _ hBf
                  apply hktail h5 _ _ ?_ rfl
                  intro k d hmm
                  simp at hmm
                  tauto
                · rw [finalCount_append, hFf]
                  simp [FinalCount, isFinalEv]
                · rw [finalCount_append, hFf]
                  simp [FinalCount, isFinalEv]
  · rw [if_neg hre]
    dsimp only
    refine ⟨?_, fun hfin => by simp at hfin, ?_⟩
    · apply backoffOk_append _ _ hBf
      intro k d hm
      simp at hm
    · rw [finalCount_append, hFf]
      simp [FinalCount, isFinalEv]

theorem followStep_inv (parseTS : String → Option Nat) (bs : Nat)
    (rd : FollowRead) (rcs : List (Option Nat)) (st : FollowSt)
    (hB : BackoffOk st.trace) (hF : FinalCount st.trace = 0) :
    BackoffOk (followStep parseTS bs rd rcs st).1.trace
    ∧ ((followStep parseTS bs rd rcs st).1.finished = false →
        FinalCount (followStep parseTS bs rd rcs st).1.trace = 0)
    ∧ FinalCount (followStep parseTS bs rd rcs st).1.trace ≤ 1 := by
  unfold followStep
  cases hres : rd.res with
  | none =>
      dsimp only
      refine ⟨backoffOk_append _ _ hB ?_, fun _ => ?_, ?_⟩
      · intro k d hm
        exact absurd hm (flushEv_no_backoff _ _ k d)
      · rw [finalCount_append, hF, flushEv_finalCount]
      · rw [finalCount_append, hF, flushEv_finalCount]
        omega
  | some fe =>
      cases fe with
      | eof =>
          exact followStepErr_inv _ _ _ _ rcs st hB hF
            (fun k d => flushEv_no_backoff _ _ k d) (flushEv_finalCount _ _)
      | err g =>
          exact followStepErr_inv _ _ _ _ rcs st hB hF
            (fun k d => flushEv_no_backoff _ _ k d) (flushEv_finalCount _ _)

theorem followRun_inv (parseTS : String → Option Nat) (bs : Nat)
    (reads : List FollowRead) :
    ∀ (rcs : List (Option Nat)) (st : FollowSt), BackoffOk st.trace →
      (st.finished = false → FinalCount st.trace = 0) →
      FinalCount st.trace ≤ 1 →
      BackoffOk (followRun parseTS bs reads rcs st).trace
      ∧ FinalCount (followRun parseTS bs reads rcs st).trace ≤ 1 := by
  induction reads with
  | nil =>
      intro rcs st hB hF0 hF1
      exact ⟨hB, hF1⟩
  | cons rd rds ih =>
      intro rcs st hB hF0 hF1
      unfold followRun
      by_cases hfin : st.finished = true ∨ st.panicked = true
      · rw [if_pos hfin]
        exact ⟨hB, hF1⟩
      · rw [if_neg hfin]
        have hFf : st.finished = false := by
          cases h : st.finished
          · rfl
          · exact absurd (Or.inl h) hfin
        have step := followStep_inv parseTS bs rd rcs st hB (hF0 hFf)
        exact ih _ _ step.1 step.2.1 step.2.2

theorem filter_finalEv_flushEv (P : Prop) [Decidable P] (b : List String) :
    List.filter isFinalEv (if P then [FollowEv.deliver b] else []) = [] := by
  split <;> simp [isFinalEv]

/-- **C7 (amended)**: in follow mode, before each reconnect attempt the
task waits `min(1s · 2^(attempt-1), 30s)` with a 1-based attempt counter
that never exceeds `maxRetries = 5`; a whole run delivers at most one final
error callback; the attempt counter is reset to zero after every successful
read AND immediately after a successful reconnect (before any read); and a
retryable read error arriving when the counter has reached 5 makes the task
deliver exactly one final error callback and terminate. -/
theorem follow_retry_semantics (parseTS : String → Option Nat)
    (batchSize : Nat) :
    (∀ (reads : List FollowRead) (rcs : List (Option Nat)) (c0 k d : Nat),
        FollowEv.backoff k d ∈
          (followRun parseTS batchSize reads rcs (initFollowSt c0)).trace →
        d = min (1000 * 2 ^ (k - 1)) 30000 ∧ 1 ≤ k ∧ k ≤ 5)
    ∧ (∀ (reads : List FollowRead) (rcs : List (Option Nat)) (c0 : Nat),
        FinalCount
          (followRun parseTS batchSize reads rcs (initFollowSt c0)).trace ≤ 1)
    ∧ (∀ (rd : FollowRead) (rcs : List (Option Nat)) (st : FollowSt),
        rd.res = none →
        (followStep parseTS batchSize rd rcs st).1.retryCount = 0)
    ∧ (∀ (rd : FollowRead) (g : GoErr) (rcs : List (Option Nat))
          (st : FollowSt) (ts : Nat),
        rd.res = some (FollowErr.err g) → isRetryableError g = true →
        g.isCanceled = false → st.retryCount < 5 → st.streamNil = false →
        (followStep parseTS batchSize rd (some ts :: rcs) st).1.retryCount = 0
        ∧ (followStep parseTS batchSize rd (some ts :: rcs) st).1.cursor = ts
        ∧ (followStep parseTS batchSize rd (some ts :: rcs) st).1.finished
            = false)
    ∧ (∀ (rd : FollowRead) (g : GoErr) (rcs : List (Option Nat))
          (st : FollowSt),
        rd.res = some (FollowErr.err g) → isRetryableError g = true →
        g.isCanceled = false → 5 ≤ st.retryCount →
        (followStep parseTS batchSize rd rcs st).1.finished = true
        ∧ (followStep parseTS batchSize rd rcs st).1.trace.filter isFinalEv =
            st.trace.filter isFinalEv ++
              [FollowEv.finalFailure st.retryCount]) := by
  have hinit : ∀ c0 : Nat, BackoffOk (initFollowSt c0).trace ∧
      ((initFollowSt c0).finished = false →
        FinalCount (initFollowSt c0).trace = 0) ∧
      FinalCount (initFollowSt c0).trace ≤ 1 := by
    intro c0
    refine ⟨?_, fun _ => rfl, ?_⟩
    · intro k d hm
      simp [initFollowSt] at hm
    · simp [initFollowSt, FinalCount]
  refine ⟨?_, ?_, ?_, ?_, ?_⟩
  · intro reads rcs c0 k d hm
    exact (followRun_inv parseTS batchSize reads rcs (initFollowSt c0)
      (hinit c0).1 (hinit c0).2.1 (hinit c0).2.2).1 k d hm
  · intro reads rcs c0
    exact (followRun_inv parseTS batchSize reads rcs (initFollowSt c0)
      (hinit c0).1 (hinit c0).2.1 (hinit c0).2.2).2
  · intro rd rcs st hres
    simp [followStep, hres]
  · intro rd g rcs st ts hres hg1 hg2 hlt hnil
    have hn : ¬ 5 ≤ st.retryCount := by omega
    simp [followStep, followStepErr, hres, hg1, hg2, hn, hnil]
  · intro rd g rcs st hres hg1 hg2 hge
    constructor
    · simp [followStep, followStepErr, hres, hg1, hg2, hge]
    · simp [followStep, followStepErr, hres, hg1, hg2, hge,
        List.filter_append, filter_finalEv_flushEv, isFinalEv]

/-- Witness for C7 (amended): concrete instances of each conjunct — the
1s first backoff, the at-most-one final callback, the reset after a
successful read, the reset immediately after a successful reconnect, and
the termination when the counter is already at 5. -/
theorem follow_retry_semantics_witness :
    ((1000 : Nat) = min (1000 * 2 ^ (1 - 1)) 30000 ∧ 1 ≤ 1 ∧ 1 ≤ 5)
    ∧ FinalCount (followRun tsParserStub 10
        [⟨"", some (FollowErr.err ⟨"broken pipe", false⟩), false⟩]
        [] (initFollowSt 0)).trace ≤ 1
    ∧ (followStep tsParserStub 10 ⟨"", none, false⟩ []
        (initFollowSt 7)).1.retryCount = 0
    ∧ (followStep tsParserStub 10
        ⟨"", some (FollowErr.err ⟨"broken pipe", false⟩), false⟩
        (some 9 :: []) ⟨false, [], 0, 3, [], false, false⟩).1.retryCount = 0
    ∧ (followStep tsParserStub 10
        ⟨"", some (FollowErr.err ⟨"broken pipe", false⟩), false⟩
        [] ⟨false, [], 0, 5, [], false, false⟩).1.finished = true := by
  have h := follow_retry_semantics tsParserStub 10
  refine ⟨h.1 [⟨"", some (FollowErr.err ⟨"broken pipe", false⟩), false⟩]
      [] 0 1 1000 (by decide),
    h.2.1 _ _ 0,
    h.2.2.1 _ [] _ rfl,
    (h.2.2.2.1 _ ⟨"broken pipe", false⟩ [] _ 9 rfl (by decide) rfl
      (by decide) rfl).1,
    (h.2.2.2.2 _ ⟨"broken pipe", false⟩ [] _ rfl (by decide) rfl
      (by decide)).1⟩

/-- Counterexample to C7 as stated: the claim says the attempt counter is
reset to zero only after the first successful read following the
reconnect.  In this run the single read fails, the reconnect succeeds, and
the goroutine state ends with `retryCount = 0` although no read of any
kind happened after the reconnect: the code resets the counter immediately
upon a successful `tryReconnect` (logs.go), before the next read. -/
theorem follow_reset_before_read_counterexample :
    followRun tsParserStub 10
      [⟨"", some (FollowErr.err ⟨"broken pipe", false⟩), false⟩]
      [some 42] (initFollowSt 0) =
    ⟨false, [], 42, 0,
      [FollowEv.retrying 1, FollowEv.closeCurrent false,
       FollowEv.backoff 1 1000, FollowEv.reconnected], false, false⟩ := by
  decide

/-- **C10 (code bug)**: the follow loop is not nil-safe.  After a failed
reconnect attempt `currentStream` is nil; the stale reader's next read
fails with a retryable error ("http2: response body closed"), and the
retry branch then calls `currentStream.Close()` on the nil handle — a
nil-interface method call, which panics.  The trace records a close of a
nil stream and the run ends panicked, with no final error callback. -/
theorem follow_nil_close_panic :
    (followRun tsParserStub 10
      [⟨"", some (FollowErr.err ⟨"broken pipe", false⟩), false⟩,
       ⟨"", some (FollowErr.err ⟨"http2: response body closed", false⟩), false⟩]
      [none] (initFollowSt 0)).panicked = true
    ∧ FollowEv.closeCurrent true ∈ (followRun tsParserStub 10
      [⟨"", some (FollowErr.err ⟨"broken pipe", false⟩), false⟩,
       ⟨"", some (FollowErr.err ⟨"http2: response body closed", false⟩), false⟩]
      [none] (initFollowSt 0)).trace
    ∧ FinalCount (followRun tsParserStub 10
      [⟨"", some (FollowErr.err ⟨"broken pipe", false⟩), false⟩,
       ⟨"", some (FollowErr.err ⟨"http2: response body closed", false⟩), false⟩]
      [none] (initFollowSt 0)).trace = 0 := by
  decide

theorem rconCmdLoop_sleeps_inv (retryDelay maxRetryDelay maxRetries : Nat) :
    ∀ (fuel : Nat) (st : RconSt) (conns : List ConnEnv) (cmds : List CmdRes)
      (retryCount attempts : Nat) (sleeps : List (Nat × Nat)),
      (∀ p ∈ sleeps,
        p.2 = min ((retryDelay * 3 ^ p.1) / 2 ^ p.1) maxRetryDelay
          ∧ p.1 < maxRetries) →
      ∀ p ∈ (rconCmdLoop retryDelay maxRetryDelay maxRetries fuel st conns
          cmds retryCount attempts sleeps).sleeps,
        p.2 = min ((retryDelay * 3 ^ p.1) / 2 ^ p.1) maxRetryDelay
          ∧ p.1 < maxRetries := by
  intro fuel
  induction fuel with
  | zero =>
      intro st conns cmds retryCount attempts sleeps hs p hp
      exact hs p hp
  | succ fuel ih =>
      intro st conns cmds retryCount attempts sleeps hs p hp
      rw [rconCmdLoop] at hp
      rcases hc : (takeCmd cmds).1 with resp | e
      · rw [hc] at hp
        exact hs p hp
      · rw [hc] at hp
        dsimp only at hp
        by_cases hg : maxRetries ≤ retryCount
        · rw [if_pos hg] at hp
          exact hs p hp
        · rw [if_neg hg] at hp
          refine ih _ _ _ _ _ _ ?_ p hp
          intro q hq
          rcases List.mem_append.mp hq with h | h
          · exact hs q h
          · simp at h
            rw [h]
            exact ⟨rfl, by omega⟩

theorem rconCmdLoop_attempts (retryDelay maxRetryDelay maxRetries : Nat) :
    ∀ (fuel : Nat) (st : RconSt) (conns : List ConnEnv) (cmds : List CmdRes)
      (retryCount attempts : Nat) (sleeps : List (Nat × Nat)),
      (rconCmdLoop retryDelay maxRetryDelay maxRetries fuel st conns cmds
        retryCount attempts sleeps).cmdAttempts ≤ attempts + fuel := by
  intro fuel
  induction fuel with
  | zero =>
      intro st conns cmds retryCount attempts sleeps
      simp [rconCmdLoop]
  | succ fuel ih =>
      intro st conns cmds retryCount attempts sleeps
      rw [rconCmdLoop]
      rcases hc : (takeCmd cmds).1 with resp | e
      · simp
      · dsimp only
        by_cases hg : maxRetries ≤ retryCount
        · rw [if_pos hg]
          simp
        · rw [if_neg hg]
          calc (rconCmdLoop retryDelay maxRetryDelay maxRetries fuel _ _ _ _
                  (attempts + 1) _).cmdAttempts
              ≤ (attempts + 1) + fuel := ih _ _ _ _ _ _
            _ ≤ attempts + (fuel + 1) := by omega

/-- Counterexample to C2 as stated: against a persistently failing
transport with the session already authenticated, `ExecuteCommand` calls
the underlying `Command` exactly **6** times, not at most 5 — the loop
runs `retryCount = 0 .. maxRetries` inclusive. -/
theorem rcon_six_attempts_counterexample :
    (rconExecuteCommand ⟨true, true⟩ []
      (List.replicate 6 (CmdRes.fail "connection refused"))).1.cmdAttempts = 6
    ∧ ¬ (rconExecuteCommand ⟨true, true⟩ []
      (List.replicate 6 (CmdRes.fail "connection refused"))).1.cmdAttempts
        ≤ 5 := by
  decide

/-- **C2 (amended)**: `rconExecutor.ExecuteCommand` attempts the underlying
`Command` at most `maxRetries + 1 = 6` times — exactly 6 against a
persistently failing transport; after each failed attempt it marks the
session disconnected and, except after the last, sleeps
`min(500ms · 1.5^attempt, 10s)` (0-based attempt index `< 5`, delays in
nanoseconds) and reconnects; after exhausting retries it returns an error
wrapping the last underlying error, with the session left disconnected. -/
theorem rcon_execute_retry_semantics :
    (∀ (st0 : RconSt) (conns : List ConnEnv) (cmds : List CmdRes)
        (p : Nat × Nat),
      p ∈ (rconExecuteCommand st0 conns cmds).1.sleeps →
      p.2 = min ((500000000 * 3 ^ p.1) / 2 ^ p.1) 10000000000 ∧ p.1 < 5)
    ∧ (∀ (st0 : RconSt) (conns : List ConnEnv) (cmds : List CmdRes),
        (rconExecuteCommand st0 conns cmds).1.cmdAttempts ≤ 6)
    ∧ (∀ (conns : List ConnEnv) (m0 m1 m2 m3 m4 m5 : String),
        (rconExecuteCommand ⟨true, true⟩ conns
          [CmdRes.fail m0, CmdRes.fail m1, CmdRes.fail m2, CmdRes.fail m3,
           CmdRes.fail m4, CmdRes.fail m5]).1 =
        ⟨⟨false, false⟩,
         Except.error ("RCON命令执行失败，已尝试重连5次: " ++ m5), 6,
         [(0, 500000000), (1, 750000000), (2, 1125000000),
          (3, 1687500000), (4, 2531250000)]⟩) := by
  refine ⟨?_, ?_, ?_⟩
  · intro st0 conns cmds p hp
    unfold rconExecuteCommand at hp
    by_cases h0 : st0.connected = true ∧ st0.authenticated = true
    · rw [if_pos h0] at hp
      exact rconCmdLoop_sleeps_inv _ _ _ _ _ _ _ _ _ _ (by simp) p hp
    · rw [if_neg h0] at hp
      dsimp only at hp
      rcases he2 : (rconConnect st0 (takeConn conns).1).err with _ | e2
      · rw [he2] at hp
        dsimp only at hp
        exact rconCmdLoop_sleeps_inv _ _ _ _ _ _ _ _ _ _ (by simp) p hp
      · rw [he2] at hp
        dsimp only at hp
        simp at hp
  · intro st0 conns cmds
    unfold rconExecuteCommand
    by_cases h0 : st0.connected = true ∧ st0.authenticated = true
    · rw [if_pos h0]
      exact rconCmdLoop_attempts _ _ _ _ _ _ _ _ _ _
    · rw [if_neg h0]
      dsimp only
      rcases he : (rconConnect st0 (takeConn conns).1).err with _ | e
      · dsimp only
        exact rconCmdLoop_attempts _ _ _ _ _ _ _ _ _ _
      · dsimp only
        simp
  · intro conns m0 m1 m2 m3 m4 m5
    simp [rconExecuteCommand, rconCmdLoop, takeCmd]
    rfl

/-- Witness for C2 (amended): the first sleep of the concrete
persistent-failure run is `(attempt 0, 500ms)` and satisfies the formula;
the concrete run makes at most (indeed exactly) 6 attempts. -/
theorem rcon_execute_retry_semantics_witness :
    ((0, 500000000) : Nat × Nat).2 =
        min ((500000000 * 3 ^ ((0, 500000000) : Nat × Nat).1) /
          2 ^ ((0, 500000000) : Nat × Nat).1) 10000000000
      ∧ ((0, 500000000) : Nat × Nat).1 < 5 := by
  have h := rcon_execute_retry_semantics
  exact h.1 ⟨true, true⟩ [] (List.replicate 6 (CmdRes.fail "x"))
    (0, 500000000) (by decide)

/-- **C3**: a connect attempt whose credential is explicitly rejected
returns the authentication error after exactly one `Authenticate` call,
without retrying, and leaves the session disconnected and
unauthenticated; an `ExecuteCommand` whose initial connect fails this way
returns that error immediately with zero `Command` attempts. -/
theorem rcon_auth_rejected_no_retry (st0 : RconSt) (env : ConnEnv)
    (cmds : List CmdRes)
    (h0 : ¬ (st0.connected = true ∧ st0.authenticated = true))
    (hc : env.connectErr = none) (ha : env.auth = AuthRes.rejected) :
    (rconConnect st0 env).err = some "RCON认证失败: 密码错误"
    ∧ (rconConnect st0 env).st = ⟨false, false⟩
    ∧ (rconConnect st0 env).authAttempts = 1
    ∧ (rconExecuteCommand st0 [env] cmds).1.result =
        Except.error "RCON认证失败: 密码错误"
    ∧ (rconExecuteCommand st0 [env] cmds).1.cmdAttempts = 0
    ∧ (rconExecuteCommand st0 [env] cmds).2 = 1 := by
  have hcon : rconConnect st0 env =
      ⟨⟨false, false⟩, some "RCON认证失败: 密码错误", 1⟩ := by
    unfold rconConnect
    rw [if_neg h0, hc, ha]
  refine ⟨by rw [hcon], by rw [hcon], by rw [hcon], ?_, ?_, ?_⟩
  all_goals {
    unfold rconExecuteCommand
    rw [if_neg h0]
    dsimp only
    rw [show (takeConn [env]).1 = env from rfl, hcon]
  }

/-- Witness for C3: a fresh (disconnected) session against a server that
rejects the credential. -/
theorem rcon_auth_rejected_no_retry_witness :
    (rconConnect ⟨false, false⟩ ⟨none, AuthRes.rejected⟩).err =
        some "RCON认证失败: 密码错误"
    ∧ (rconConnect ⟨false, false⟩ ⟨none, AuthRes.rejected⟩).st = ⟨false, false⟩
    ∧ (rconConnect ⟨false, false⟩ ⟨none, AuthRes.rejected⟩).authAttempts = 1
    ∧ (rconExecuteCommand ⟨false, false⟩ [⟨none, AuthRes.rejected⟩] []).1.result
        = Except.error "RCON认证失败: 密码错误"
    ∧ (rconExecuteCommand ⟨false, false⟩ [⟨none, AuthRes.rejected⟩] []).1.cmdAttempts
        = 0
    ∧ (rconExecuteCommand ⟨false, false⟩ [⟨none, AuthRes.rejected⟩] []).2 = 1 :=
  rcon_auth_rejected_no_retry ⟨false, false⟩ ⟨none, AuthRes.rejected⟩ []
    (by decide) rfl rfl

theorem scanPods_fst (pods : List PodM) :
    ∀ (latest : Option PodM) (t : Nat),
      (scanPods pods latest t).1 =
        pods.find? (fun q => q.phase == PodPhase.running) := by
  induction pods with
  | nil => intro latest t; simp [scanPods]
  | cons p ps ih =>
      intro latest t
      by_cases hr : p.phase = PodPhase.running
      · simp [scanPods, hr, List.find?]
      · rw [scanPods, if_neg hr]
        have hb : (p.phase == PodPhase.running) = false := by
          simpa using hr
        have hfind : (p :: ps).find? (fun q => q.phase == PodPhase.running) =
            ps.find? (fun q => q.phase == PodPhase.running) := by
          simp [List.find?, hb]
        rw [hfind]
        by_cases hs : p.phase = PodPhase.succeeded ∧
            (latest = none ∨ t < p.startTime)
        · rw [if_pos hs]
          exact ih _ _
        · rw [if_neg hs]
          exact ih _ _

theorem scanPods_snd_spec (pods : List PodM) :
    ∀ (latest : Option PodM) (t : Nat),
      (∀ q ∈ pods, q.phase ≠ PodPhase.running) →
      ((latest = none ∧ t = 0) ∨
        (∃ m0, latest = some m0 ∧ m0.startTime = t)) →
      (∀ m, (scanPods pods latest t).2 = some m →
          ((m ∈ pods ∧ m.phase = PodPhase.succeeded) ∨ latest = some m)
          ∧ t ≤ m.startTime
          ∧ ∀ q ∈ pods, q.phase = PodPhase.succeeded →
              q.startTime ≤ m.startTime)
      ∧ ((scanPods pods latest t).2 = none →
          latest = none ∧ ∀ q ∈ pods, q.phase ≠ PodPhase.succeeded) := by
  induction pods with
  | nil =>
      intro latest t hnr hl
      constructor
      · intro m hm
        simp [scanPods] at hm
        refine ⟨Or.inr hm, ?_, by simp⟩
        rcases hl with ⟨hn, ht⟩ | ⟨m0, hm0, ht⟩
        · omega
        · rw [hm] at hm0
          cases hm0
          omega
      · intro hm
        simp [scanPods] at hm
        exact ⟨hm, by simp⟩
  | cons p ps ih =>
      intro latest t hnr hl
      have hpr : p.phase ≠ PodPhase.running := hnr p (by simp)
      rw [scanPods, if_neg hpr]
      by_cases hs : p.phase = PodPhase.succeeded ∧
          (latest = none ∨ t < p.startTime)
      · rw [if_pos hs]
        have hrec := ih (some p) p.startTime
          (fun q hq => hnr q (List.mem_cons_of_mem _ hq))
          (Or.inr ⟨p, rfl, rfl⟩)
        constructor
        · intro m hm
          obtain ⟨hmem, hle, hmax⟩ := hrec.1 m hm
          refine ⟨?_, ?_, ?_⟩
          · rcases hmem with ⟨hmm, hph⟩ | hlat
            · exact Or.inl ⟨List.mem_cons_of_mem _ hmm, hph⟩
            · cases hlat
              exact Or.inl ⟨List.mem_cons_self _ _, hs.1⟩
          · rcases hl with ⟨hn, ht⟩ | ⟨m0, hm0, ht⟩
            · omega
            · rcases hs.2 with hn | hlt
              · rw [hm0] at hn
                cases hn
              · omega
          · intro q hq hqs
            rcases List.mem_cons.mp hq with hq0 | hq1
            · rw [hq0]
              exact hle
            · exact hmax q hq1 hqs
        · intro hm
          have := hrec.2 hm
          cases this.1
      · rw [if_neg hs]
        have hrec := ih latest t
          (fun q hq => hnr q (List.mem_cons_of_mem _ hq)) hl
        constructor
        · intro m hm
          obtain ⟨hmem, hle, hmax⟩ := hrec.1 m hm
          refine ⟨?_, hle, ?_⟩
          · rcases hmem with ⟨hmm, hph⟩ | hlat
            · exact Or.inl ⟨List.mem_cons_of_mem _ hmm, hph⟩
            · exact Or.inr hlat
          · intro q hq hqs
            rcases List.mem_cons.mp hq with hq0 | hq1
            · subst hq0
              have hps : ¬ (latest = none ∨ t < q.startTime) := by
                intro hcon
                exact hs ⟨hqs, hcon⟩
              push_neg at hps
              omega
            · exact hmax q hq1 hqs
        · intro hm
          obtain ⟨hln, hnos⟩ := hrec.2 hm
          refine ⟨hln, ?_⟩
          intro q hq
          rcases List.mem_cons.mp hq with hq0 | hq1
          · subst hq0
            intro hqs
            exact hs ⟨hqs, Or.inl hln⟩
          · exact hnos q hq1

theorem scanPods_snd_none (pods : List PodM) :
    ∀ (t : Nat), (∀ q ∈ pods, q.phase ≠ PodPhase.succeeded) →
      (scanPods pods none t).2 = none := by
  induction pods with
  | nil => intro t h; simp [scanPods]
  | cons p ps ih =>
      intro t h
      have hps : p.phase ≠ PodPhase.succeeded := h p (by simp)
      rw [scanPods]
      by_cases hr : p.phase = PodPhase.running
      · rw [if_pos hr]
      · rw [if_neg hr, if_neg (fun hc => hps hc.1)]
        exact ih t (fun q hq => h q (List.mem_cons_of_mem _ hq))

/-- **C4**: pod selection of the discovery refresh — an empty candidate
list fails with the DiscoveryError; otherwise the first Running pod is
selected; with no Running pod, a Succeeded pod with the maximal start time
is selected; with neither, the first candidate is selected. -/
theorem findAndUpdatePodInfo_selection (pods : List PodM) (selector : String) :
    (pods = [] → findAndUpdatePodInfo pods selector =
      .error ("未找到匹配标签 '" ++ selector ++ "' 的Pod"))
    ∧ (∀ p, pods.find? (fun q => q.phase == PodPhase.running) = some p →
        findAndUpdatePodInfo pods selector = .ok p)
    ∧ ((∀ q ∈ pods, q.phase ≠ PodPhase.running) →
        (∃ q ∈ pods, q.phase = PodPhase.succeeded) →
        ∀ p, findAndUpdatePodInfo pods selector = .ok p →
          p ∈ pods ∧ p.phase = PodPhase.succeeded ∧
            ∀ q ∈ pods, q.phase = PodPhase.succeeded →
              q.startTime ≤ p.startTime)
    ∧ ((∀ q ∈ pods, q.phase ≠ PodPhase.running ∧
          q.phase ≠ PodPhase.succeeded) →
        ∀ p0 ps, pods = p0 :: ps →
          findAndUpdatePodInfo pods selector = .ok p0) := by
  refine ⟨?_, ?_, ?_, ?_⟩
  · intro h
    subst h
    rfl
  · intro p hp
    cases pods with
    | nil => simp [List.find?] at hp
    | cons p0 ps =>
        unfold findAndUpdatePodInfo
        dsimp only
        rw [scanPods_fst, hp]
  · intro hnr hex p hok
    cases pods with
    | nil =>
        obtain ⟨q, hq, _⟩ := hex
        simp at hq
    | cons p0 ps =>
        unfold findAndUpdatePodInfo at hok
        dsimp only at hok
        rw [scanPods_fst] at hok
        have hfind : (p0 :: ps).find? (fun q => q.phase == PodPhase.running)
            = none := by
          rw [List.find?_eq_none]
          intro q hq
          simpa using hnr q hq
        rw [hfind] at hok
        have hspec := scanPods_snd_spec (p0 :: ps) none 0 hnr
          (Or.inl ⟨rfl, rfl⟩)
        cases hm : (scanPods (p0 :: ps) none 0).2 with
        | none =>
            obtain ⟨q, hq, hqs⟩ := hex
            exact absurd hqs (hspec.2 hm |>.2 q hq)
        | some m =>
            rw [hm] at hok
            obtain ⟨hmem, hle0, hmax⟩ := hspec.1 m hm
            injection hok with hok2
            subst hok2
            rcases hmem with ⟨hmm, hph⟩ | hlat
            · exact ⟨hmm, hph, hmax⟩
            · cases hlat
  · intro hno p0 ps hpods
    subst hpods
    unfold findAndUpdatePodInfo
    dsimp only
    rw [scanPods_fst]
    have hfind : (p0 :: ps).find? (fun q => q.phase == PodPhase.running)
        = none := by
      rw [List.find?_eq_none]
      intro q hq
      simpa using (hno q hq).1
    rw [hfind, scanPods_snd_none (p0 :: ps) 0 (fun q hq => (hno q hq).2)]

/-- Witness for C4: empty list fails; the first Running pod wins; with no
Running pod the most recently started Succeeded pod wins; with neither,
the first candidate wins. -/
theorem findAndUpdatePodInfo_selection_witness :
    findAndUpdatePodInfo [] "app=mc" =
      .error ("未找到匹配标签 '" ++ "app=mc" ++ "' 的Pod")
    ∧ findAndUpdatePodInfo
        [⟨"a", PodPhase.pending, 0, ""⟩, ⟨"b", PodPhase.running, 3, ""⟩,
         ⟨"c", PodPhase.running, 9, ""⟩] "s" =
        .ok ⟨"b", PodPhase.running, 3, ""⟩
    ∧ ((⟨"c", PodPhase.succeeded, 9, ""⟩ : PodM) ∈
        ([⟨"a", PodPhase.pending, 0, ""⟩, ⟨"b", PodPhase.succeeded, 5, ""⟩,
          ⟨"c", PodPhase.succeeded, 9, ""⟩, ⟨"d", PodPhase.failed, 1, ""⟩]
          : List PodM)
      ∧ (⟨"c", PodPhase.succeeded, 9, ""⟩ : PodM).phase = PodPhase.succeeded
      ∧ (∀ q ∈ ([⟨"a", PodPhase.pending, 0, ""⟩, ⟨"b", PodPhase.succeeded, 5, ""⟩,
          ⟨"c", PodPhase.succeeded, 9, ""⟩, ⟨"d", PodPhase.failed, 1, ""⟩]
          : List PodM), q.phase = PodPhase.succeeded →
          q.startTime ≤ (⟨"c", PodPhase.succeeded, 9, ""⟩ : PodM).startTime))
    ∧ findAndUpdatePodInfo
        [⟨"a", PodPhase.pending, 4, ""⟩, ⟨"b", PodPhase.failed, 7, ""⟩] "s" =
        .ok ⟨"a", PodPhase.pending, 4, ""⟩ := by
  refine ⟨(findAndUpdatePodInfo_selection [] "app=mc").1 rfl,
    (findAndUpdatePodInfo_selection
      [⟨"a", PodPhase.pending, 0, ""⟩, ⟨"b", PodPhase.running, 3, ""⟩,
       ⟨"c", PodPhase.running, 9, ""⟩] "s").2.1 _ (by decide), ?_, ?_⟩
  · exact (findAndUpdatePodInfo_selection
      [⟨"a", PodPhase.pending, 0, ""⟩, ⟨"b", PodPhase.succeeded, 5, ""⟩,
       ⟨"c", PodPhase.succeeded, 9, ""⟩, ⟨"d", PodPhase.failed, 1, ""⟩]
      "s").2.2.1 (by decide)
      ⟨⟨"b", PodPhase.succeeded, 5, ""⟩, by decide, rfl⟩ _ (by decide)
  · exact (findAndUpdatePodInfo_selection
      [⟨"a", PodPhase.pending, 4, ""⟩, ⟨"b", PodPhase.failed, 7, ""⟩]
      "s").2.2.2 (by decide) _ _ rfl

theorem rconConnect_ok_connected (c : ConnEnv)
    (h : (rconConnect ⟨false, false⟩ c).err = none) :
    (rconConnect ⟨false, false⟩ c).st = ⟨true, true⟩ := by
  unfold rconConnect at h ⊢
  rw [if_neg (by simp)] at h ⊢
  cases hc : c.connectErr with
  | some e =>
      rw [hc] at h
      dsimp only at h
      cases h
  | none =>
      rw [hc] at h
      dsimp only at h ⊢
      cases ha : c.auth
      · rw [ha] at h
        dsimp only at h
        cases h
      · rw [ha] at h
        dsimp only at h
        cases h
      · rfl

theorem createRcon_ok_connected (env : ControllerEnv) (us : List Bool)
    (ex : ExecutorM) (h : (createRconExecutorM env us).1 = .ok ex) :
    executorIsConnected ex = true := by
  unfold createRconExecutorM at h
  by_cases hp : env.rconPort = 0
  · rw [if_pos hp] at h; cases h
  · rw [if_neg hp] at h
    dsimp only at h
    by_cases hu : (takeUpdate us).1 = false
    · rw [if_pos hu] at h; cases h
    · rw [if_neg hu] at h
      cases he : (rconConnect ⟨false, false⟩ env.rconConn).err with
      | some e => rw [he] at h; cases h
      | none =>
          rw [he] at h
          injection h with h2
          subst h2
          simp [executorIsConnected, rconConnect_ok_connected _ he]

theorem createAttach_ok_connected (env : ControllerEnv) (us : List Bool)
    (ex : ExecutorM) (h : (createAttachExecutorM env us).1 = .ok ex) :
    executorIsConnected ex = true := by
  unfold createAttachExecutorM at h
  dsimp only at h
  by_cases hu : (takeUpdate us).1 = false
  · rw [if_pos hu] at h; cases h
  · rw [if_neg hu] at h
    unfold attachExecutorConnect at h
    rw [if_neg (by simp)] at h
    by_cases hf : env.podName = "" ∨ env.nsName = "" ∨ env.containerName = ""
    · rw [if_pos hf] at h; cases h
    · rw [if_neg hf] at h
      dsimp only at h
      injection h with h2
      subst h2
      rfl

theorem takeUpdate_true (us : List Bool) (h : ∀ b ∈ us, b = true) :
    (takeUpdate us).1 = true ∧ ∀ b ∈ (takeUpdate us).2, b = true := by
  cases us with
  | nil => exact ⟨rfl, by simp [takeUpdate]⟩
  | cons b rest =>
      refine ⟨h b (by simp), ?_⟩
      intro x hx
      exact h x (List.mem_cons_of_mem _ hx)

/-- Counterexample to C5 as stated: with the RCON port unset, the attach
executor failing to connect (empty container name), and pod-info updates
succeeding, `CreateCommandExecutor(Auto)` returns the exec executor even
though its connect was never attempted and it is not working
(`IsConnected` is false, because it checks the same identity fields that
made the attach connect fail). -/
theorem auto_returns_unconnected_exec_counterexample :
    CreateCommandExecutor
      ⟨0, "ip", "pw", "p", "n", "", ⟨none, AuthRes.ok⟩, []⟩
      ExecutorTypeM.auto = .ok (.exec "p" "n" "" true 30)
    ∧ executorIsConnected (.exec "p" "n" "" true 30) = false := by
  decide

/-- **C5 (amended)**: `CreateCommandExecutor(Auto)` attempts RCON, then
attach, then exec, in that order; for RCON and attach it returns the first
whose construction and connect succeed, and any such executor reports
`IsConnected = true`; when both fail it returns the result of
`createExecExecutor`, which never attempts a connect — so whatever Auto
returns is either a connected RCON/attach executor or the unverified exec
executor.  In particular, with the RCON port unset, the attach connect
failing (an empty pod identity field) and pod updates succeeding, Auto
returns the exec executor, whose `IsConnected` is false.  An unsupported
explicit type fails with the ConfigurationError. -/
theorem createExecutor_auto_semantics (env : ControllerEnv) :
    (∀ ex, (createRconExecutorM env env.podUpdates).1 = .ok ex →
        CreateCommandExecutor env ExecutorTypeM.auto = .ok ex)
    ∧ (∀ e1 ex, (createRconExecutorM env env.podUpdates).1 = .error e1 →
        (createAttachExecutorM env
          (createRconExecutorM env env.podUpdates).2).1 = .ok ex →
        CreateCommandExecutor env ExecutorTypeM.auto = .ok ex)
    ∧ (∀ e1 e2, (createRconExecutorM env env.podUpdates).1 = .error e1 →
        (createAttachExecutorM env
          (createRconExecutorM env env.podUpdates).2).1 = .error e2 →
        CreateCommandExecutor env ExecutorTypeM.auto =
          (createExecExecutorM env
            (createAttachExecutorM env
              (createRconExecutorM env env.podUpdates).2).2).1)
    ∧ (∀ ex, CreateCommandExecutor env ExecutorTypeM.auto = .ok ex →
        (executorIsConnected ex = true ∨
          ex = .exec env.podName env.nsName env.containerName true 30))
    ∧ (env.rconPort = 0 →
        (env.podName = "" ∨ env.nsName = "" ∨ env.containerName = "") →
        (∀ b ∈ env.podUpdates, b = true) →
        CreateCommandExecutor env ExecutorTypeM.auto =
          .ok (.exec env.podName env.nsName env.containerName true 30)
        ∧ executorIsConnected
            (.exec env.podName env.nsName env.containerName true 30) = false)
    ∧ (∀ s, CreateCommandExecutor env (ExecutorTypeM.other s) =
        .error ("不支持的执行器类型: " ++ s)) := by
  refine ⟨?_, ?_, ?_, ?_, ?_, fun s => rfl⟩
  · intro ex h
    unfold CreateCommandExecutor
    dsimp only
    rw [h]
  · intro e1 ex h1 h2
    unfold CreateCommandExecutor
    dsimp only
    rw [h1]
    dsimp only
    rw [h2]
  · intro e1 e2 h1 h2
    unfold CreateCommandExecutor
    dsimp only
    rw [h1]
    dsimp only
    rw [h2]
  · intro ex h
    unfold CreateCommandExecutor at h
    dsimp only at h
    cases h1 : (createRconExecutorM env env.podUpdates).1 with
    | ok ex1 =>
        rw [h1] at h
        dsimp only at h
        injection h with h2
        subst h2
        exact Or.inl (createRcon_ok_connected env _ _ h1)
    | error e1 =>
        rw [h1] at h
        dsimp only at h
        cases h2 : (createAttachExecutorM env
            (createRconExecutorM env env.podUpdates).2).1 with
        | ok ex2 =>
            rw [h2] at h
            dsimp only at h
            injection h with h3
            subst h3
            exact Or.inl (createAttach_ok_connected env _ _ h2)
        | error e2 =>
            rw [h2] at h
            dsimp only at h
            unfold createExecExecutorM at h
            dsimp only at h
            by_cases hu : (takeUpdate (createAttachExecutorM env
                (createRconExecutorM env env.podUpdates).2).2).1 = false
            · rw [if_pos hu] at h
              cases h
            · rw [if_neg hu] at h
              injection h with h3
              exact Or.inr h3.symm
  · intro hport hfield hupd
    have h1 : (createRconExecutorM env env.podUpdates) =
        (.error "RCON端口未设置", env.podUpdates) := by
      unfold createRconExecutorM
      rw [if_pos hport]
    have hu1 := takeUpdate_true env.podUpdates hupd
    have h2 : (createAttachExecutorM env env.podUpdates).1 =
        .error ("attach连接失败: " ++ "Pod信息不完整") ∧
        (∀ b ∈ (createAttachExecutorM env env.podUpdates).2, b = true) := by
      unfold createAttachExecutorM
      rw [if_neg (by rw [hu1.1]; simp)]
      unfold attachExecutorConnect
      rw [if_neg (by simp), if_pos hfield]
      exact ⟨rfl, hu1.2⟩
    have hu2 := takeUpdate_true _ h2.2
    constructor
    · unfold CreateCommandExecutor
      rw [h1]
      dsimp only
      rw [h2.1]
      dsimp only
      unfold createExecExecutorM
      rw [if_neg (by rw [hu2.1]; simp)]
    · rcases hfield with hf | hf | hf <;>
        simp [executorIsConnected, hf]

/-- Witness for C5 (amended): the concrete environment of the
counterexample discharges the scenario conjunct, and an unsupported
type string discharges the ConfigurationError conjunct. -/
theorem createExecutor_auto_semantics_witness :
    (CreateCommandExecutor
        ⟨0, "ip", "pw", "p", "n", "", ⟨none, AuthRes.ok⟩, []⟩
        ExecutorTypeM.auto = .ok (.exec "p" "n" "" true 30)
      ∧ executorIsConnected (.exec "p" "n" "" true 30) = false)
    ∧ CreateCommandExecutor
        ⟨0, "ip", "pw", "p", "n", "", ⟨none, AuthRes.ok⟩, []⟩
        (ExecutorTypeM.other "weird") =
        .error ("不支持的执行器类型: " ++ "weird") := by
  have h := createExecutor_auto_semantics
    ⟨0, "ip", "pw", "p", "n", "", ⟨none, AuthRes.ok⟩, []⟩
  exact ⟨h.2.2.2.2.1 rfl (by decide) (by decide), h.2.2.2.2.2 "weird"⟩

/-- Counterexample to C9 as stated: the exec executor defaults to the
process-fd path, which returns stderr whenever stderr is non-empty even
though stdout is non-empty — the claim says stdout should be returned
then. -/
theorem execExecutor_stderr_counterexample :
    execExecutorExecuteCommand (newExecExecutorM "p" "n" "c")
      ⟨"out", "err", none⟩ = .ok "err"
    ∧ (Except.ok "err" : Except String String) ≠ .ok "out" := by
  decide

/-- **C9 (amended)**: `newExecExecutor` fixes a 30-second timeout and
`useProcessFd = true`; with that default, `ExecuteCommand` returns stderr
whenever stderr is non-empty (regardless of stdout), otherwise stdout;
the direct-exec variant returns stderr only when stdout is empty and
stderr is non-empty, otherwise stdout. -/
theorem execExecutor_result_semantics (p n c stdout stderr : String) :
    (newExecExecutorM p n c).timeoutSec = 30
    ∧ (newExecExecutorM p n c).useProcessFd = true
    ∧ execExecutorExecuteCommand (newExecExecutorM p n c)
        ⟨stdout, stderr, none⟩ =
        (if stderr ≠ "" then .ok stderr else .ok stdout)
    ∧ executeViaDirectExec ⟨stdout, stderr, none⟩ =
        (if stdout = "" ∧ stderr ≠ "" then .ok stderr else .ok stdout) :=
  ⟨rfl, rfl, rfl, rfl⟩

theorem sweepLoop_snd (now : Nat) :
    ∀ (ids : List String) (reg : List SessionM) (evs : List SweepEv),
      (sweepLoop now ids reg evs).2 = evs ++ sweepEvents ids := by
  intro ids
  induction ids with
  | nil => intro reg evs; simp [sweepLoop, sweepEvents]
  | cons id rest ih =>
      intro reg evs
      rw [sweepLoop, ih]
      simp [sweepEvents]

theorem sweepLoop_fst (now : Nat) :
    ∀ (ids : List String) (reg : List SessionM) (evs : List SweepEv),
      (sweepLoop now ids reg evs).1 =
        reg.filter (fun s => !(decide (s.id ∈ ids))) := by
  intro ids
  induction ids with
  | nil =>
      intro reg evs
      simp [sweepLoop]
  | cons id rest ih =>
      intro reg evs
      rw [sweepLoop, ih, List.filter_filter]
      apply List.filter_congr
      intro s hs
      by_cases hb : s.id = id <;>
        simp [hb, List.mem_cons, Bool.and_comm]

theorem sweepEvents_lockOk :
    ∀ (ids : List String), closesOutsideLock 1 (sweepEvents ids) = true := by
  intro ids
  induction ids with
  | nil => rfl
  | cons id rest ih =>
      simp only [sweepEvents, List.cons_append, List.nil_append,
        closesOutsideLock]
      simpa using ih

theorem close_mem_sweepEvents :
    ∀ (ids : List String) (id : String), id ∈ ids →
      SweepEv.closeSession id ∈ sweepEvents ids := by
  intro ids
  induction ids with
  | nil => intro id h; simp at h
  | cons x rest ih =>
      intro id h
      rcases List.mem_cons.mp h with h0 | h1
      · subst h0
        simp [sweepEvents]
      · simp only [sweepEvents, List.cons_append, List.nil_append]
        simp only [List.mem_cons]
        exact Or.inr (Or.inr (Or.inr (Or.inr (by simpa using ih id h1))))

/-- **C8**: every session idle beyond its timeout is removed by the sweep
(the resulting registry is exactly the non-idle sessions); every
`session.Close()` is performed with the registry lock released; each idle
session gets closed; and a subsequent `SessionExecuteCommand` on its id
fails with the SessionNotFoundError. -/
theorem session_sweep_spec (now : Nat) (reg : List SessionM)
    (hnd : (reg.map (fun s => s.id)).Nodup) :
    (cleanupIdleSessions now reg).1 =
      reg.filter (fun s => !(sessionIsIdle now s))
    ∧ closesOutsideLock 0 (cleanupIdleSessions now reg).2 = true
    ∧ ∀ s ∈ reg, sessionIsIdle now s = true →
        SweepEv.closeSession s.id ∈ (cleanupIdleSessions now reg).2
        ∧ ∀ r : Except String String,
            SessionExecuteCommand (cleanupIdleSessions now reg).1 s.id r =
              .error ("会话不存在: " ++ s.id) := by
  have hinj : ∀ x ∈ reg, ∀ y ∈ reg, x.id = y.id → x = y := by
    intro x hx y hy hxy
    exact List.inj_on_of_nodup_map hnd hx hy hxy
  have hfst : (cleanupIdleSessions now reg).1 =
      reg.filter (fun s => !(sessionIsIdle now s)) := by
    unfold cleanupIdleSessions
    rw [sweepLoop_fst]
    apply List.filter_congr
    intro s hs
    by_cases hidle : sessionIsIdle now s = true
    · have hmem : s.id ∈ (reg.filter (sessionIsIdle now)).map
          (fun s => s.id) :=
        List.mem_map_of_mem _ (List.mem_filter.mpr ⟨hs, hidle⟩)
      rw [hidle]
      simp [hmem]
    · have hb : sessionIsIdle now s = false := by
        cases h : sessionIsIdle now s
        · rfl
        · exact absurd h hidle
      rw [hb]
      have hnc : s.id ∉ (reg.filter (sessionIsIdle now)).map
          (fun s => s.id) := by
        intro hc
        obtain ⟨q, hq, hqid⟩ := List.mem_map.mp hc
        have hq1 := List.mem_filter.mp hq
        have : q = s := hinj q hq1.1 s hs hqid
        rw [this] at hq1
        rw [hq1.2] at hb
        cases hb
      simp [hnc]
  refine ⟨hfst, ?_, ?_⟩
  · unfold cleanupIdleSessions
    rw [sweepLoop_snd]
    simp only [List.cons_append, List.nil_append, closesOutsideLock]
    exact sweepEvents_lockOk _
  · intro s hs hidle
    constructor
    · unfold cleanupIdleSessions
      rw [sweepLoop_snd]
      refine List.mem_append.mpr (Or.inr ?_)
      apply close_mem_sweepEvents
      exact List.mem_map_of_mem _ (List.mem_filter.mpr ⟨hs, hidle⟩)
    · intro r
      unfold SessionExecuteCommand
      rw [hfst]
      have hnone : (reg.filter (fun s => !(sessionIsIdle now s))).find?
          (fun q => q.id == s.id) = none := by
        rw [List.find?_eq_none]
        intro q hq
        have hq1 := List.mem_filter.mp hq
        intro hbeq
        have hqid : q.id = s.id := by simpa using hbeq
        have : q = s := hinj q hq1.1 s hs hqid
        rw [this, hidle] at hq1
        simp at hq1
      rw [hnone]

/-- Witness for C8: a registry with one idle and one fresh session at
`now = 100`; the sweep keeps the fresh one, closes the idle one outside
the lock, and a later execute on the idle id fails. -/
theorem session_sweep_spec_witness :
    (cleanupIdleSessions 100 [⟨"s1", 0, 10⟩, ⟨"s2", 95, 10⟩]).1 =
      List.filter (fun s => !(sessionIsIdle 100 s))
        [⟨"s1", 0, 10⟩, ⟨"s2", 95, 10⟩]
    ∧ closesOutsideLock 0
        (cleanupIdleSessions 100 [⟨"s1", 0, 10⟩, ⟨"s2", 95, 10⟩]).2 = true
    ∧ SweepEv.closeSession "s1" ∈
        (cleanupIdleSessions 100 [⟨"s1", 0, 10⟩, ⟨"s2", 95, 10⟩]).2
    ∧ SessionExecuteCommand
        (cleanupIdleSessions 100 [⟨"s1", 0, 10⟩, ⟨"s2", 95, 10⟩]).1 "s1"
        (.ok "resp") = .error ("会话不存在: " ++ "s1") := by
  have h := session_sweep_spec 100 [⟨"s1", 0, 10⟩, ⟨"s2", 95, 10⟩]
    (by decide)
  have h3 := h.2.2 ⟨"s1", 0, 10⟩ (by decide) (by decide)
  exact ⟨h.1, h.2.1, h3.1, h3.2 (.ok "resp")⟩

/-- **C1**: for every catch-up stream contents and cursor `c0 > 0`,
`tryReconnect` forwards during catch-up only lines whose parsed timestamp
is strictly greater than `c0` (lines without a parsed timestamp are also
forwarded, but they carry no timestamp `≤ c0`); it advances the cursor to
the maximum timestamp seen; the catch-up query starts one nanosecond after
`c0` and the reopened follow query starts one nanosecond after the advanced
cursor with `TailLines` cleared, so the backend is asked only for lines
strictly newer than everything delivered; and the main read loop's
line-processing step never decreases the cursor, setting it to the maximum
of the old cursor and the line's parsed timestamp.  Hence no line with a
parsed timestamp `≤` the cursor is ever delivered again across reconnects. -/
theorem tryReconnect_no_redelivery
    (parseTS : String → Option Nat) (batchSize : Nat)
    (optionsSince : Option Nat) (container : String) (previous : Bool)
    (c0 : Nat) (ls : List String) (fin : String) (r : ReconnectRes)
    (h0 : 0 < c0)
    (hr : r = tryReconnectModel parseTS batchSize optionsSince container
      previous c0 (some (ls, fin))) :
    (∀ b ∈ r.delivered, ∀ content ∈ b,
        ∃ l ∈ ls ++ [fin], (parseLogLine parseTS l).1 = content ∧
          ((parseLogLine parseTS l).2.2 = true →
            c0 < (parseLogLine parseTS l).2.1))
    ∧ r.newCursor = maxParsedTs parseTS c0 (ls ++ [fin])
    ∧ c0 ≤ r.newCursor
    ∧ r.catchUpOpts = some ⟨container, previous, true, false, some (c0 + 1), none⟩
    ∧ r.followOpts.sinceTime = some (r.newCursor + 1)
    ∧ r.followOpts.tailLines = none
    ∧ r.followOpts.follow = true
    ∧ (∀ line buf c, c ≤ (followProcessLine parseTS line buf c).2)
    ∧ (∀ line buf c, (parseLogLine parseTS line).2.2 = true →
        (followProcessLine parseTS line buf c).2 =
          max c (parseLogLine parseTS line).2.1) := by
  have hc0 : c0 ≠ 0 := Nat.pos_iff_ne_zero.mp h0
  have hinit : CatchInv parseTS c0 [] ⟨[], c0, 0, []⟩ := by
    refine ⟨le_refl c0, fun _ => rfl, ?_, ?_⟩
    · simp [maxParsedTs]
    · intro content hc
      simp at hc
  have hinv := catchUpRun_inv parseTS c0 batchSize ls fin [] ⟨[], c0, 0, []⟩ hinit
  rw [List.nil_append] at hinv
  set st := catchUpRun parseTS batchSize ls fin ⟨[], c0, 0, []⟩ with hst
  obtain ⟨i1, i2, i3, i4⟩ := hinv
  have hm : st.missed = [] := catchUpRun_ends_flushed parseTS batchSize ls fin _
  have hb : st.batchLatest = 0 := i2 hm
  have hlat : st.latest = maxParsedTs parseTS c0 (ls ++ [fin]) := by
    rw [← i3, hb]
    simp
  have hlz : st.latest ≠ 0 := by
    intro hz
    rw [hz] at i1
    omega
  have hr' : r = ⟨st.delivered, st.latest,
      some ⟨container, previous, true, false, some (c0 + 1), none⟩,
      ⟨container, previous, true, true, some (st.latest + 1), none⟩⟩ := by
    rw [hr]
    unfold tryReconnectModel
    simp only [if_pos hc0, ← hst, if_pos hlz]
  subst hr'
  refine ⟨?_, hlat, i1, rfl, rfl, rfl, rfl, ?_, ?_⟩
  · intro b hbmem content hcmem
    apply i4 content
    rw [hm, List.nil_append]
    exact List.mem_flatten.mpr ⟨b, hbmem, hcmem⟩
  · intro line buf c
    unfold followProcessLine
    by_cases hl : line = ""
    · rw [if_pos hl]
    · rw [if_neg hl]
      dsimp only
      by_cases hg : (parseLogLine parseTS line).2.2 = true ∧
          c < (parseLogLine parseTS line).2.1
      · rw [if_pos hg]
        exact le_of_lt hg.2
      · rw [if_neg hg]
  · intro line buf c hok
    unfold followProcessLine
    by_cases hl : line = ""
    · rw [hl] at hok
      rw [parseLogLine_empty] at hok
      simp at hok
    · rw [if_neg hl]
      dsimp only
      by_cases hlt : c < (parseLogLine parseTS line).2.1
      · rw [if_pos ⟨hok, hlt⟩]
        exact (max_eq_right (le_of_lt hlt)).symm
      · rw [if_neg (fun hcon => hlt hcon.2)]
        exact (max_eq_left (not_lt.mp hlt)).symm

/-- Witness for C1: a concrete catch-up stream over cursor 5; the line with
timestamp 3 is dropped, the lines with timestamps 7 and 9 are forwarded,
the cursor advances to 9, the catch-up query starts at 6 and the follow
query reopens at 10. -/
theorem tryReconnect_no_redelivery_witness :
    (∀ b ∈ ([["b", "c"]] : List (List String)), ∀ content ∈ b,
        ∃ l ∈ ["3 a\n", "7 b\n", "9 c\n"] ++ [""],
          (parseLogLine tsParserStub l).1 = content ∧
          ((parseLogLine tsParserStub l).2.2 = true →
            5 < (parseLogLine tsParserStub l).2.1))
    ∧ (9 : Nat) = maxParsedTs tsParserStub 5 (["3 a\n", "7 b\n", "9 c\n"] ++ [""])
    ∧ (5 : Nat) ≤ 9
    ∧ (some ⟨"mc", false, true, false, some 6, none⟩ : Option PodLogOptionsM) =
        some ⟨"mc", false, true, false, some (5 + 1), none⟩
    ∧ (some 10 : Option Nat) = some (9 + 1)
    ∧ (none : Option Nat) = none
    ∧ true = true
    ∧ (∀ line buf c, c ≤ (followProcessLine tsParserStub line buf c).2)
    ∧ (∀ line buf c, (parseLogLine tsParserStub line).2.2 = true →
        (followProcessLine tsParserStub line buf c).2 =
          max c (parseLogLine tsParserStub line).2.1) :=
  tryReconnect_no_redelivery tsParserStub 2 none "mc" false 5
    ["3 a\n", "7 b\n", "9 c\n"] ""
    ⟨[["b", "c"]], 9, some ⟨"mc", false, true, false, some 6, none⟩,
      ⟨"mc", false, true, true, some 10, none⟩⟩
    (by decide) (by decide)

end mccontrol
